import Mathlib

/-
Verification of the traffic-correlation and per-game extraction engine of the
linkedin-games-scraper repository (src/linkedin_games_scraper/solver.py).

The Python code is shallowly embedded: decoded JSON documents become the `Json`
inductive type (with `Json.null` also standing for the Python value None, since
JSON null decodes to None), Python dictionary/list subscripting and method
calls become `Except`-valued operations that model the exceptions the code can
raise, the blanket try/except blocks of the extractors become total matches on
those `Except` values, and the mutable results dictionary becomes an explicit
`Store` threaded through every operation.  Selenium navigation, logging and
file output are not modelled: they have no effect on the extracted values or
on the results store beyond what is noted in the comments below.
-/

namespace LinkedinGames

/-- Decoded JSON values as produced by json.loads.  `Json.null` models both
JSON null and the Python value None (json.loads maps null to None, and the
solver code uses None for every absent result). -/
inductive Json where
  | null
  | bool (b : Bool)
  | num (n : Int)
  | str (s : String)
  | arr (elems : List Json)
  | obj (fields : List (String × Json))

mutual

def Json.decEq : (a b : Json) → Decidable (a = b)
  | .null, .null => isTrue rfl
  | .bool a, .bool b =>
    if h : a = b then isTrue (by rw [h]) else isFalse (fun he => by injection he with hh; exact h hh)
  | .num a, .num b =>
    if h : a = b then isTrue (by rw [h]) else isFalse (fun he => by injection he with hh; exact h hh)
  | .str a, .str b =>
    if h : a = b then isTrue (by rw [h]) else isFalse (fun he => by injection he with hh; exact h hh)
  | .arr xs, .arr ys =>
    match Json.decEqList xs ys with
    | isTrue h => isTrue (by rw [h])
    | isFalse h => isFalse (fun he => by injection he with hh; exact h hh)
  | .obj fs, .obj gs =>
    match Json.decEqFields fs gs with
    | isTrue h => isTrue (by rw [h])
    | isFalse h => isFalse (fun he => by injection he with hh; exact h hh)
  | .null, .bool _ => isFalse (fun h => Json.noConfusion h)
  | .null, .num _ => isFalse (fun h => Json.noConfusion h)
  | .null, .str _ => isFalse (fun h => Json.noConfusion h)
  | .null, .arr _ => isFalse (fun h => Json.noConfusion h)
  | .null, .obj _ => isFalse (fun h => Json.noConfusion h)
  | .bool _, .null => isFalse (fun h => Json.noConfusion h)
  | .bool _, .num _ => isFalse (fun h => Json.noConfusion h)
  | .bool _, .str _ => isFalse (fun h => Json.noConfusion h)
  | .bool _, .arr _ => isFalse (fun h => Json.noConfusion h)
  | .bool _, .obj _ => isFalse (fun h => Json.noConfusion h)
  | .num _, .null => isFalse (fun h => Json.noConfusion h)
  | .num _, .bool _ => isFalse (fun h => Json.noConfusion h)
  | .num _, .str _ => isFalse (fun h => Json.noConfusion h)
  | .num _, .arr _ => isFalse (fun h => Json.noConfusion h)
  | .num _, .obj _ => isFalse (fun h => Json.noConfusion h)
  | .str _, .null => isFalse (fun h => Json.noConfusion h)
  | .str _, .bool _ => isFalse (fun h => Json.noConfusion h)
  | .str _, .num _ => isFalse (fun h => Json.noConfusion h)
  | .str _, .arr _ => isFalse (fun h => Json.noConfusion h)
  | .str _, .obj _ => isFalse (fun h => Json.noConfusion h)
  | .arr _, .null => isFalse (fun h => Json.noConfusion h)
  | .arr _, .bool _ => isFalse (fun h => Json.noConfusion h)
  | .arr _, .num _ => isFalse (fun h => Json.noConfusion h)
  | .arr _, .str _ => isFalse (fun h => Json.noConfusion h)
  | .arr _, .obj _ => isFalse (fun h => Json.noConfusion h)
  | .obj _, .null => isFalse (fun h => Json.noConfusion h)
  | .obj _, .bool _ => isFalse (fun h => Json.noConfusion h)
  | .obj _, .num _ => isFalse (fun h => Json.noConfusion h)
  | .obj _, .str _ => isFalse (fun h => Json.noConfusion h)
  | .obj _, .arr _ => isFalse (fun h => Json.noConfusion h)
termination_by a _ => sizeOf a

def Json.decEqList : (xs ys : List Json) → Decidable (xs = ys)
  | [], [] => isTrue rfl
  | [], _ :: _ => isFalse (fun h => List.noConfusion h)
  | _ :: _, [] => isFalse (fun h => List.noConfusion h)
  | x :: xs, y :: ys =>
    match Json.decEq x y with
    | isTrue h1 =>
      match Json.decEqList xs ys with
      | isTrue h2 => isTrue (by rw [h1, h2])
      | isFalse h2 => isFalse (fun h => by injection h with _ ht; exact h2 ht)
    | isFalse h1 => isFalse (fun h => by injection h with hh _; exact h1 hh)
termination_by xs _ => sizeOf xs

def Json.decEqFields : (fs gs : List (String × Json)) → Decidable (fs = gs)
  | [], [] => isTrue rfl
  | [], _ :: _ => isFalse (fun h => List.noConfusion h)
  | _ :: _, [] => isFalse (fun h => List.noConfusion h)
  | (k1, v1) :: fs, (k2, v2) :: gs =>
    if hk : k1 = k2 then
      match Json.decEq v1 v2 with
      | isTrue h1 =>
        match Json.decEqFields fs gs with
        | isTrue h2 => isTrue (by rw [hk, h1, h2])
        | isFalse h2 => isFalse (fun h => by injection h with _ ht; exact h2 ht)
      | isFalse h1 => isFalse (fun h => by
          injection h with hh ht
          injection hh with hhk hhv
          exact h1 hhv)
    else isFalse (fun h => by
      injection h with hh ht
      injection hh with hhk hhv
      exact hk hhk)
termination_by fs _ => sizeOf fs

end

instance : DecidableEq Json := Json.decEq

/-- Python truthiness of a decoded JSON value, as used by every `if data:`
and `if solution:` test in solver.py.  None, False, 0, the empty string, the
empty list and the empty dict are falsy; everything else is truthy. -/
def Json.truthy : Json → Bool
  | .null => false
  | .bool b => b
  | .num n => n != 0
  | .str s => s != ""
  | .arr xs => !xs.isEmpty
  | .obj fs => !fs.isEmpty

/-- Python subscript d[k] with a string key.  Succeeds only on a dict that
has the key; a missing key raises KeyError and a non-dict raises TypeError
(both become `Except.error`). -/
def Json.getKey : Json → String → Except String Json
  | .obj fs, k =>
    match fs.lookup k with
    | some v => .ok v
    | none => .error "KeyError"
  | _, _ => .error "TypeError: value not subscriptable by string"

/-- Python subscript d[i] with a nonnegative int index, as used for the
`included[0]` and `solutions[0]` accesses.  Lists and strings support it,
anything else raises TypeError; an out-of-range index raises IndexError. -/
def Json.getIdx : Json → Nat → Except String Json
  | .arr xs, i =>
    match xs.get? i with
    | some v => .ok v
    | none => .error "IndexError"
  | .str s, i =>
    match s.toList.get? i with
    | some c => .ok (.str (String.mk [c]))
    | none => .error "IndexError"
  | _, _ => .error "TypeError: value not subscriptable by int"

/-- Python d.get(k): only dicts have the method (AttributeError otherwise);
returns None when the key is missing. -/
def Json.pyGet : Json → String → Except String Json
  | .obj fs, k => .ok ((fs.lookup k).getD .null)
  | _, _ => .error "AttributeError: no method get"

/-- Python d.get(k, default): only dicts have the method; returns the default
when the key is missing (a key present with value null yields null, not the
default, exactly as in Python). -/
def Json.pyGetD : Json → String → Json → Except String Json
  | .obj fs, k, d => .ok ((fs.lookup k).getD d)
  | _, _, _ => .error "AttributeError: no method get"

/-- Characters of hay starting with needle. -/
def charsLead : List Char → List Char → Bool
  | [], _ => true
  | _ :: _, [] => false
  | a :: as, b :: bs => a == b && charsLead as bs

/-- Needle occurs somewhere in hay. -/
def charsSub (needle : List Char) : List Char → Bool
  | [] => charsLead needle []
  | c :: cs => charsLead needle (c :: cs) || charsSub needle cs

/-- The Python substring test `needle in hay` on strings. -/
def strContains (hay needle : String) : Bool :=
  charsSub needle.toList hay.toList

/-- The Python equality test between a decoded value and a string literal:
true exactly when the value is that string (values of other types are never
equal to a string). -/
def Json.eqStr : Json → String → Bool
  | .str s, k => s == k
  | _, _ => false

/-- Membership of a string among decoded list elements, element by element
with the Python equality test. -/
def jsonStrMem (k : String) : List Json → Bool
  | [] => false
  | x :: xs => x.eqStr k || jsonStrMem k xs

/-- Python `k in d` for a string k: key test on dicts, element test on lists,
substring test on strings, TypeError on anything else. -/
def Json.pyContainsKey : Json → String → Except String Bool
  | .obj fs, k => .ok (fs.any (fun p => p.fst == k))
  | .arr xs, k => .ok (jsonStrMem k xs)
  | .str s, k => .ok (strContains s k)
  | _, _ => .error "TypeError: argument of in not iterable"

/-- Python iteration `for x in d`: elements of a list, characters of a string
(as one-character strings), keys of a dict; TypeError on anything else. -/
def Json.pyIter : Json → Except String (List Json)
  | .arr xs => .ok xs
  | .str s => .ok (s.toList.map (fun c => .str (String.mk [c])))
  | .obj fs => .ok (fs.map (fun p => .str p.fst))
  | _ => .error "TypeError: value not iterable"

/-- The mutable results dictionary self.results["data"]: an insertion-ordered
string-keyed mapping, assignment replacing in place or appending, exactly as a
Python dict behaves. -/
abbrev Store := List (String × Json)

/-- Python dict assignment st[k] = v. -/
def Store.set (st : Store) (k : String) (v : Json) : Store :=
  match st with
  | [] => [(k, v)]
  | (k0, v0) :: rest => if k0 == k then (k, v) :: rest else (k0, v0) :: Store.set rest k v

/-- Read a key of the results dictionary. -/
def Store.get (st : Store) (k : String) : Option Json :=
  st.lookup k

/-- GameSolver.__init__ sets self.results to a dictionary whose "data" entry
is created empty.  The store therefore starts empty at process start. -/
def initialResults : Store := []

/-- One captured exchange from self.driver.requests.  `hasResponse` models
the truthiness of request.response; `body` models decoding the response body
as UTF-8 and parsing it as JSON (`none` when either step raises, which the
code catches and logs). -/
structure Request where
  url : String
  hasResponse : Bool
  body : Option Json
deriving DecidableEq

/-- GameSolver.GAME_TYPE_IDS, copied verbatim from solver.py (a class
attribute, hence a process-wide constant). -/
def GAME_TYPE_IDS : List (String × Nat) :=
  [("pinpoint", 1), ("crossclimb", 2), ("queens", 3), ("tango", 5), ("zip", 6), ("mini_sudoku", 7)]

/-- The id the solver passes to _find_game_response for a game name. -/
def gameTypeIdOf (game : String) : Nat :=
  (GAME_TYPE_IDS.lookup game).getD 0

/-- The URL filter of GameSolver._find_game_response, line for line: the URL
must contain "voyager/api/graphql", "gameTypeId:" followed by the decimal id,
and "voyagerIdentityDashGames", and must not contain
"voyagerIdentityDashGamesPages". -/
def urlMatchesGame (url : String) (gameTypeId : Nat) : Bool :=
  strContains url "voyager/api/graphql"
    && strContains url ("gameTypeId:" ++ toString gameTypeId)
    && strContains url "voyagerIdentityDashGames"
    && !(strContains url "voyagerIdentityDashGamesPages")

/-- GameSolver._find_game_response: scan the captured requests in order; skip
requests without a response; on a URL match try to decode the body, returning
the decoded JSON, and on a decode failure fall through to the next request
(the except block only logs).  When nothing matches, return None (modelled by
Json.null).  The request counters only feed logging and are not modelled. -/
def findGameResponse (gameTypeId : Nat) : List Request → Json
  | [] => .null
  | r :: rest =>
    if !r.hasResponse then findGameResponse gameTypeId rest
    else if urlMatchesGame r.url gameTypeId then
      match r.body with
      | some doc => doc
      | none => findGameResponse gameTypeId rest
    else findGameResponse gameTypeId rest

/-- The matching predicate as the specification words it: a non-absent
response, the URL filter, and a body that decodes as JSON. -/
def claimMatch (gameTypeId : Nat) (r : Request) : Bool :=
  r.hasResponse && urlMatchesGame r.url gameTypeId && r.body.isSome

/-- The earliest exchange satisfying `claimMatch`, in capture order. -/
def specFindMatch (gameTypeId : Nat) : List Request → Option Request
  | [] => none
  | r :: rest => if claimMatch gameTypeId r then some r else specFindMatch gameTypeId rest

/-- The response matcher as the specification words it: the decoded body of
the earliest exchange satisfying `claimMatch`, absent when there is none. -/
def specFindGameResponse (gameTypeId : Nat) (reqs : List Request) : Json :=
  match specFindMatch gameTypeId reqs with
  | some r => r.body.getD .null
  | none => .null

/-- The numeric view Python uses when comparing with the order operators:
ints are themselves, booleans are 0 and 1. -/
def pyNumVal : Json → Option Int
  | .num n => some n
  | .bool b => some (if b then 1 else 0)
  | _ => none

/-- The Python comparison a < b on decoded values, as invoked by sorted:
numbers (and booleans) compare numerically, strings lexicographically,
anything else raises TypeError.  (Python also orders lists elementwise; the
solver only ever sorts rung dicts by an int-or-string key, so that case is
not modelled.) -/
def pyLt (a b : Json) : Except String Bool :=
  match pyNumVal a, pyNumVal b with
  | some x, some y => .ok (decide (x < y))
  | _, _ =>
    match a, b with
    | .str s, .str t => .ok (decide (s < t))
    | _, _ => .error "TypeError: values not orderable"

/-- Insert x into a list, after every element y with lt y x: combined with
`sortStable` below this is a stable ascending sort, producing the same output
as the stable sort Python sorted performs (a stable sort under a total key
order is unique), with comparison failures surfacing as errors the way a
comparison raising inside sorted would. -/
def insertSorted (lt : α → α → Except String Bool) (x : α) : List α → Except String (List α)
  | [] => .ok [x]
  | y :: ys => do
    let b ← lt y x
    if b then
      let r ← insertSorted lt x ys
      pure (y :: r)
    else
      pure (x :: y :: ys)

/-- Stable insertion sort modelling Python sorted. -/
def sortStable (lt : α → α → Except String Bool) : List α → Except String (List α)
  | [] => .ok []
  | x :: xs => do
    let r ← sortStable lt xs
    insertSorted lt x r

/-- Monadic map over Except, stopping at the first failure, as a Python for
loop or comprehension over a list stops at the first raised exception. -/
def exMapM (f : α → Except String β) : List α → Except String (List β)
  | [] => .ok []
  | a :: as => do
    let b ← f a
    let bs ← exMapM f as
    pure (b :: bs)

/-- The field path of _find_pinpoint_solution:
data["included"][0]["gamePuzzle"]["blueprintGamePuzzle"]["solutions"][0]. -/
def pinpointBody (data : Json) : Except String Json := do
  let inc ← data.getKey "included"
  let e0 ← inc.getIdx 0
  let gp ← e0.getKey "gamePuzzle"
  let bp ← gp.getKey "blueprintGamePuzzle"
  let sols ← bp.getKey "solutions"
  sols.getIdx 0

/-- GameSolver._find_pinpoint_solution, after the response document has been
located: on truthy data, follow the field path inside try; on success record
the solution under "pinpoint" and return it; any failure is caught, logged
and turned into a None return with the store untouched. -/
def pinpointFromData (data : Json) (st : Store) : Except String (Json × Store) :=
  if data.truthy then
    match pinpointBody data with
    | .ok sol => .ok (sol, st.set "pinpoint" sol)
    | .error _ => .ok (.null, st)
  else .ok (.null, st)

/-- The try-block of _find_crossclimb_solution: fetch the rungs list, sort it
by the solutionRungIndex key with the stable sort of Python sorted (key
extraction first, in list order, as the decorate step of sorted), then build
the list of (solutionRungIndex, word) pairs, modelling each Python tuple as a
two-element array. -/
def crossclimbBody (data : Json) : Except String Json := do
  let inc ← data.getKey "included"
  let e0 ← inc.getIdx 0
  let gp ← e0.getKey "gamePuzzle"
  let cc ← gp.getKey "crossClimbGamePuzzle"
  let rungs ← cc.getKey "rungs"
  let elems ← rungs.pyIter
  let keyed ← exMapM (fun x => do
    let k ← x.getKey "solutionRungIndex"
    pure (k, x)) elems
  let sorted ← sortStable (fun a b => pyLt a.fst b.fst) keyed
  let sol ← exMapM (fun p => do
    let i ← p.snd.getKey "solutionRungIndex"
    let w ← p.snd.getKey "word"
    pure (Json.arr [i, w])) sorted
  pure (Json.arr sol)

/-- GameSolver._find_crossclimb_solution after the response is located. -/
def crossclimbFromData (data : Json) (st : Store) : Except String (Json × Store) :=
  if data.truthy then
    match crossclimbBody data with
    | .ok sol => .ok (sol, st.set "crossclimb" sol)
    | .error _ => .ok (.null, st)
  else .ok (.null, st)

/-- The try-block of _find_zip_solution: the code walks
data["included"][0]["gamePuzzle"]["trailGamePuzzle"] three times for the
three fields, with identical results, read here once; field order as in the
source: orderedSequence, solution, gridSize. -/
def zipBody (data : Json) : Except String (Json × Json × Json) := do
  let inc ← data.getKey "included"
  let e0 ← inc.getIdx 0
  let gp ← e0.getKey "gamePuzzle"
  let tr ← gp.getKey "trailGamePuzzle"
  let seq ← tr.getKey "orderedSequence"
  let sol ← tr.getKey "solution"
  let grid ← tr.getKey "gridSize"
  pure (seq, sol, grid)

/-- GameSolver._find_zip_solution after the response is located: on success
the store receives solution under "zip", orderedSequence under
"zip_sequence" and gridSize under "zip_grid", and orderedSequence is the
returned value. -/
def zipFromData (data : Json) (st : Store) : Except String (Json × Store) :=
  if data.truthy then
    match zipBody data with
    | .ok (seq, sol, grid) =>
      .ok (seq, ((st.set "zip" sol).set "zip_sequence" seq).set "zip_grid" grid)
    | .error _ => .ok (.null, st)
  else .ok (.null, st)

/-- The try-block of _find_queens_solution: fetch solution, colorGrid and
gridSize, then build the (row, col) pair list and the list of each row
colors entry, in source order. -/
def queensBody (data : Json) : Except String (Json × Json × Json) := do
  let inc ← data.getKey "included"
  let e0 ← inc.getIdx 0
  let gp ← e0.getKey "gamePuzzle"
  let qp ← gp.getKey "queensGamePuzzle"
  let queens ← qp.getKey "solution"
  let board ← qp.getKey "colorGrid"
  let grid ← qp.getKey "gridSize"
  let qs ← queens.pyIter
  let sol ← exMapM (fun q => do
    let r ← q.getKey "row"
    let c ← q.getKey "col"
    pure (Json.arr [r, c])) qs
  let rows ← board.pyIter
  let bd ← exMapM (fun row => row.getKey "colors") rows
  pure (Json.arr sol, Json.arr bd, grid)

/-- GameSolver._find_queens_solution after the response is located. -/
def queensFromData (data : Json) (st : Store) : Except String (Json × Store) :=
  if data.truthy then
    match queensBody data with
    | .ok (sol, bd, grid) =>
      .ok (sol, ((st.set "queens" sol).set "queens_board" bd).set "queens_grid" grid)
    | .error _ => .ok (.null, st)
  else .ok (.null, st)

/-- The token-to-bit encoding of _find_tango_solution: a token equal to the
string ONE becomes the character one, anything else becomes zero, and the
characters are concatenated in input order. -/
def tangoEncode (items : List Json) : String :=
  String.mk (items.map (fun item => if item.eqStr "ONE" then '1' else '0'))

/-- The try-block of _find_tango_solution: fetch the solution token list at
included[0].gamePuzzle.lotkaGamePuzzle.solution, iterate it and encode. -/
def tangoBody (data : Json) : Except String Json := do
  let inc ← data.getKey "included"
  let e0 ← inc.getIdx 0
  let gp ← e0.getKey "gamePuzzle"
  let lp ← gp.getKey "lotkaGamePuzzle"
  let sa ← lp.getKey "solution"
  let items ← sa.pyIter
  pure (Json.str (tangoEncode items))

/-- GameSolver._find_tango_solution after the response is located.  Note the
encoded string is written to the store and returned even when it is empty. -/
def tangoFromData (data : Json) (st : Store) : Except String (Json × Store) :=
  if data.truthy then
    match tangoBody data with
    | .ok sol => .ok (sol, st.set "tango" sol)
    | .error _ => .ok (.null, st)
  else .ok (.null, st)

/-- The linear scan of _find_mini_sudoku_solution over the included items:
item.get("gamePuzzle") (raising on a non-dict item), then, when that value is
truthy, game_puzzle.get("miniSudokuGamePuzzle") (raising on a non-dict), and
the first truthy hit is kept. -/
def miniScan : List Json → Except String (Option Json)
  | [] => .ok none
  | item :: rest => do
    let gp ← item.pyGet "gamePuzzle"
    if gp.truthy then
      let msp ← gp.pyGet "miniSudokuGamePuzzle"
      if msp.truthy then pure (some msp) else miniScan rest
    else miniScan rest

/-- Clamp a Python slice bound to the length of the sequence, negative
indices counting from the end. -/
def sliceBound (len : Nat) (i : Int) : Nat :=
  if i < 0 then (i + len).toNat else min i.toNat len

/-- Python slicing d[s:e]: defined on lists and strings for every pair of int
bounds, TypeError on anything else. -/
def pySlice : Json → Int → Int → Except String Json
  | .arr xs, s, e =>
    let a := sliceBound xs.length s
    let b := sliceBound xs.length e
    .ok (.arr ((xs.drop a).take (b - a)))
  | .str t, s, e =>
    let a := sliceBound t.length s
    let b := sliceBound t.length e
    .ok (.str (String.mk ((t.toList.drop a).take (b - a))))
  | _, _, _ => .error "TypeError: value not sliceable"

/-- Python range(g) for a decoded value: ints (and booleans, which are ints)
give the index list, anything else raises TypeError. -/
def pyIndexList (n : Int) : List Int :=
  (List.range n.toNat).map (fun i => (i : Int))

/-- The row-printing loop of _find_mini_sudoku_solution: for i in
range(grid_size) slice solution[i*g : i*g+g].  Its only semantic effect is
the exception it can raise (range on a non-int, slicing a non-sequence); the
slices themselves only feed logging. -/
def miniLogRows (gridSize solution : Json) : Except String Unit :=
  match pyNumVal gridSize with
  | none => .error "TypeError: range argument not an int"
  | some g => do
    let _ ← exMapM (fun i => pySlice solution (i * g) (i * g + g)) (pyIndexList g)
    pure ()

/-- The try-block of _find_mini_sudoku_solution: check "included" in data and
the truthiness of data["included"] (the else branch logs and returns None);
iterate the included value, scanning for the first truthy
gamePuzzle.miniSudokuGamePuzzle (when none is found a diagnostics loop runs,
which may itself raise, and either way the function returns None with the
store untouched); from the found puzzle read solution by subscript and the
three optional fields with dict.get defaults, run the row-printing loop, then
record the four-field entry under "mini_sudoku" and return the solution. -/
def miniBody (data : Json) : Except String (Option (Json × Json × Json × Json)) := do
  let c ← data.pyContainsKey "included"
  if c then
    let inc ← data.getKey "included"
    if inc.truthy then
      let items ← inc.pyIter
      let found ← miniScan items
      match found with
      | none => pure none
      | some msp => do
        let sol ← msp.getKey "solution"
        let gs ← msp.pyGetD "gridRowSize" (Json.num 6)
        let preset ← msp.pyGetD "presetCellIdxes" (Json.arr [])
        let title ← msp.pyGetD "name" (Json.str "Unknown")
        miniLogRows gs sol
        pure (some (sol, gs, preset, title))
    else pure none
  else pure none

/-- GameSolver._find_mini_sudoku_solution after the response is located.  The
diagnostics the code emits when the scan fails can raise inside the same try
block; both that exception path and the plain return None path leave the
store untouched and produce None, so they collapse to the same outcome. -/
def miniSudokuFromData (data : Json) (st : Store) : Except String (Json × Store) :=
  if data.truthy then
    match miniBody data with
    | .ok none => .ok (.null, st)
    | .ok (some (sol, gs, preset, title)) =>
      .ok (sol, st.set "mini_sudoku" (Json.obj
        [("solution", sol), ("grid_size", gs), ("preset_cells", preset), ("title", title)]))
    | .error _ => .ok (.null, st)
  else .ok (.null, st)

/-- _find_pinpoint_solution in full: locate the response for the pinpoint
game type id among the captured requests, then extract. -/
def findPinpointSolution (reqs : List Request) (st : Store) : Except String (Json × Store) :=
  pinpointFromData (findGameResponse (gameTypeIdOf "pinpoint") reqs) st

/-- _find_crossclimb_solution in full. -/
def findCrossclimbSolution (reqs : List Request) (st : Store) : Except String (Json × Store) :=
  crossclimbFromData (findGameResponse (gameTypeIdOf "crossclimb") reqs) st

/-- _find_zip_solution in full. -/
def findZipSolution (reqs : List Request) (st : Store) : Except String (Json × Store) :=
  zipFromData (findGameResponse (gameTypeIdOf "zip") reqs) st

/-- _find_queens_solution in full. -/
def findQueensSolution (reqs : List Request) (st : Store) : Except String (Json × Store) :=
  queensFromData (findGameResponse (gameTypeIdOf "queens") reqs) st

/-- _find_tango_solution in full. -/
def findTangoSolution (reqs : List Request) (st : Store) : Except String (Json × Store) :=
  tangoFromData (findGameResponse (gameTypeIdOf "tango") reqs) st

/-- _find_mini_sudoku_solution in full. -/
def findMiniSudokuSolution (reqs : List Request) (st : Store) : Except String (Json × Store) :=
  miniSudokuFromData (findGameResponse (gameTypeIdOf "mini_sudoku") reqs) st

/-- The while loop shared by the six solve_* methods: while the deadline has
not passed and the current solution is falsy, run one extraction attempt; a
truthy result breaks out at once.  Discrete time: `fuel` is the number of
loop-condition checks the deadline still allows, `k` the poll index, `sol`
the Python local variable solution (initially None), and the returned Nat
counts the extraction attempts made.  An exception in an attempt would
propagate (there is no try in solve_*), modelled by the Except layer. -/
def pollSteps (step : Nat → Store → Except String (Json × Store)) :
    Nat → Nat → Json → Store → Nat → Except String (Json × Store × Nat)
  | _, 0, sol, st, att => .ok (sol, st, att)
  | k, fuel + 1, sol, st, att =>
    if sol.truthy then .ok (sol, st, att)
    else do
      let (s, st2) ← step k st
      if s.truthy then .ok (s, st2, att + 1)
      else pollSteps step (k + 1) fuel s st2 (att + 1)

/-- One solve_* polling run: loop from poll 0 with solution = None and no
attempts made.  The final value is what solve_* returns (the last attempt
result, falsy on timeout). -/
def pollLoop (step : Nat → Store → Except String (Json × Store)) (fuel : Nat) (st : Store) :
    Except String (Json × Store × Nat) :=
  pollSteps step 0 fuel Json.null st 0

/-- GameSolver.solve_pinpoint without the navigation preamble: `docs k` is
the document _find_game_response yields at poll k (Json.null when nothing
matches), so one step is exactly one _find_pinpoint_solution call. -/
def solvePinpoint (docs : Nat → Json) (fuel : Nat) (st : Store) :
    Except String (Json × Store × Nat) :=
  pollLoop (fun k st2 => pinpointFromData (docs k) st2) fuel st

/-- GameSolver.solve_crossclimb without the navigation preamble. -/
def solveCrossclimb (docs : Nat → Json) (fuel : Nat) (st : Store) :
    Except String (Json × Store × Nat) :=
  pollLoop (fun k st2 => crossclimbFromData (docs k) st2) fuel st

/-- GameSolver.solve_zip without the navigation preamble. -/
def solveZip (docs : Nat → Json) (fuel : Nat) (st : Store) :
    Except String (Json × Store × Nat) :=
  pollLoop (fun k st2 => zipFromData (docs k) st2) fuel st

/-- GameSolver.solve_queens without the navigation preamble. -/
def solveQueens (docs : Nat → Json) (fuel : Nat) (st : Store) :
    Except String (Json × Store × Nat) :=
  pollLoop (fun k st2 => queensFromData (docs k) st2) fuel st

/-- GameSolver.solve_tango without the navigation preamble. -/
def solveTango (docs : Nat → Json) (fuel : Nat) (st : Store) :
    Except String (Json × Store × Nat) :=
  pollLoop (fun k st2 => tangoFromData (docs k) st2) fuel st

/-- GameSolver.solve_mini_sudoku without the navigation preamble. -/
def solveMiniSudoku (docs : Nat → Json) (fuel : Nat) (st : Store) :
    Except String (Json × Store × Nat) :=
  pollLoop (fun k st2 => miniSudokuFromData (docs k) st2) fuel st

/-- The per-game guard of solve_all_games: results[game] = sol only when the
solve return value is truthy. -/
def addIfTruthy (results : Store) (key : String) (v : Json) : Store :=
  if v.truthy then results.set key v else results

/-- GameSolver.solve_all_games: run the six games strictly in order, each
against its own captured-document stream (the navigation step clears the
request ledger between games) and its own deadline, threading the results
store through; collect the truthy solve returns into a fresh results dict.
The finally block (browser shutdown and writing the store to disk) is pure
I/O and is not modelled. -/
def solveAllGames (docs : String → Nat → Json) (fuel : String → Nat) (st : Store) :
    Except String (Store × Store) := do
  let (p, st1, _) ← solvePinpoint (docs "pinpoint") (fuel "pinpoint") st
  let r1 := addIfTruthy [] "pinpoint" p
  let (c, st2, _) ← solveCrossclimb (docs "crossclimb") (fuel "crossclimb") st1
  let r2 := addIfTruthy r1 "crossclimb" c
  let (z, st3, _) ← solveZip (docs "zip") (fuel "zip") st2
  let r3 := addIfTruthy r2 "zip" z
  let (q, st4, _) ← solveQueens (docs "queens") (fuel "queens") st3
  let r4 := addIfTruthy r3 "queens" q
  let (t, st5, _) ← solveTango (docs "tango") (fuel "tango") st4
  let r5 := addIfTruthy r4 "tango" t
  let (m, st6, _) ← solveMiniSudoku (docs "mini_sudoku") (fuel "mini_sudoku") st5
  let r6 := addIfTruthy r5 "mini_sudoku" m
  pure (r6, st6)

/-- Whether an Except computation succeeded (no exception escaped). -/
def okB : Except String α → Bool
  | .ok _ => true
  | .error _ => false

/-- Structural test for the null value. -/
def Json.isNull : Json → Bool
  | .null => true
  | _ => false

/-- The value a pinpoint extraction attempt produces, independent of the
store: some solution when the data is truthy and the field path resolves,
none when the attempt is absent. -/
def pinpointRes (d : Json) : Option Json :=
  if d.truthy then (pinpointBody d).toOption else none

/-- The fourth exchange of the concrete C2 run below: it matches the URL
filter and its body decodes. -/
def c2good : Request :=
  { url := "voyager/api/graphqlvoyagerIdentityDashGamesgameTypeId:1x", hasResponse := true,
    body := some (.num 4) }

/-- A concrete captured list: the first exchange has no response, the second
hits the pages endpoint, the third matches but does not decode, the fourth
matches and decodes. -/
def c2reqs : List Request :=
  [ { url := "voyager/api/graphqlvoyagerIdentityDashGamesgameTypeId:1", hasResponse := false,
      body := some (.num 0) },
    { url := "voyager/api/graphqlvoyagerIdentityDashGamesPagesgameTypeId:1", hasResponse := true,
      body := some (.num 1) },
    { url := "voyager/api/graphqlvoyagerIdentityDashGamesgameTypeId:1", hasResponse := true,
      body := none },
    c2good ]

/-- The mini_sudoku locator worded as the claim words it literally: the first
element of the included list whose gamePuzzle.miniSudokuGamePuzzle field is
present and non-null. -/
def scanNonNull : List Json → Option Json
  | [] => none
  | item :: rest =>
    match item with
    | .obj fs =>
      match fs.lookup "gamePuzzle" with
      | some (.obj gfs) =>
        match gfs.lookup "miniSudokuGamePuzzle" with
        | some msp => if msp.isNull then scanNonNull rest else some msp
        | none => scanNonNull rest
      | _ => scanNonNull rest
    | _ => scanNonNull rest

/-- The miniSudokuGamePuzzle field reached through a truthy dict gamePuzzle
of a dict element, when it exists. -/
def scanItemPuzzle (item : Json) : Option Json :=
  match item with
  | .obj fs =>
    match fs.lookup "gamePuzzle" with
    | some gp =>
      if gp.truthy then
        match gp with
        | .obj gfs => gfs.lookup "miniSudokuGamePuzzle"
        | _ => none
      else none
    | none => none
  | _ => none

/-- The mini_sudoku locator as the code actually selects: the first element
of the included list whose gamePuzzle value is truthy and carries a truthy
miniSudokuGamePuzzle field; anything else is non-matching and skipped. -/
def scanTruthy : List Json → Option Json
  | [] => none
  | item :: rest =>
    match scanItemPuzzle item with
    | some msp => if msp.truthy then some msp else scanTruthy rest
    | none => scanTruthy rest

/-- Structural test for a dict value. -/
def isObjB : Json → Bool
  | .obj _ => true
  | _ => false

/-- Conditions under which the code scan cannot raise on an element: the
element is a dict, and its gamePuzzle value, when truthy, is itself a dict
(item.get raises on a non-dict item, and game_puzzle.get raises on a truthy
non-dict gamePuzzle). -/
def scanSafe : Json → Bool
  | .obj fs =>
    match fs.lookup "gamePuzzle" with
    | some gp => !gp.truthy || isObjB gp
    | none => true
  | _ => false

/-- The locator over the whole document: a dict document whose included entry
is a list, scanned for the first truthy puzzle. -/
def specLocate (data : Json) : Option Json :=
  match data with
  | .obj fs =>
    match fs.lookup "included" with
    | some (.arr items) => scanTruthy items
    | _ => none
  | _ => none

/-- The two-element included list of the C3 counterexample: the first element
carries a non-null but falsy (empty dict) miniSudokuGamePuzzle, the second a
real puzzle. -/
def c3items : List Json :=
  [ .obj [("gamePuzzle", .obj [("miniSudokuGamePuzzle", .obj [])])],
    .obj [("gamePuzzle", .obj [("miniSudokuGamePuzzle", .obj
      [("solution", .arr [.num 1, .num 2, .num 3, .num 4]), ("gridRowSize", .num 2)])])] ]

/-- The C3 counterexample document. -/
def c3doc : Json := .obj [("included", .arr c3items)]

/-- The per-token encoding the claim describes for tango, on string tokens. -/
def tangoStr (xs : List String) : String :=
  String.mk (xs.map (fun s => if s == "ONE" then '1' else '0'))

/-- A document of the shape the tango extractor reads, with the given token
list at included[0].gamePuzzle.lotkaGamePuzzle.solution. -/
def mkTangoDoc (items : List Json) : Json :=
  .obj [("included", .arr
    [ .obj [("gamePuzzle", .obj [("lotkaGamePuzzle", .obj [("solution", .arr items)])])] ])]

/-- A document of the shape the zip extractor reads, with the given
orderedSequence, solution and gridSize fields. -/
def mkZipDoc (seq sol grid : Json) : Json :=
  .obj [("included", .arr
    [ .obj [("gamePuzzle", .obj [("trailGamePuzzle", .obj
        [("orderedSequence", seq), ("solution", sol), ("gridSize", grid)])])] ])]

/-- One crossclimb rung dict with the given index and word. -/
def mkRungJ (i : Int) (w : String) : Json :=
  .obj [("solutionRungIndex", .num i), ("word", .str w)]

/-- A document of the shape the crossclimb extractor reads, with one rung per
input pair. -/
def mkCrossclimbDoc (ps : List (Int × String)) : Json :=
  .obj [("included", .arr
    [ .obj [("gamePuzzle", .obj [("crossClimbGamePuzzle", .obj
        [("rungs", .arr (ps.map (fun p => mkRungJ p.1 p.2)))])])] ])]

/-- Insert a pair into a list of pairs, after every pair with a strictly
smaller first component: the insertion step of a stable ascending sort by
the first component. -/
def insertPairs (p : Int × String) : List (Int × String) → List (Int × String)
  | [] => [p]
  | q :: qs => if q.1 < p.1 then q :: insertPairs p qs else p :: q :: qs

/-- Stable ascending sort of (index, word) pairs by index, as the claim
describes the crossclimb normalization. -/
def sortPairs : List (Int × String) → List (Int × String)
  | [] => []
  | p :: ps => insertPairs p (sortPairs ps)

/-- The decorated form the crossclimb body gives a rung built from a pair:
the extracted sort key alongside the rung dict. -/
def rungPhi (p : Int × String) : Json × Json :=
  (.num p.1, mkRungJ p.1 p.2)

/-- The Json rendering of a list of (index, word) pairs, each pair a
two-element array as the Python tuples are modelled. -/
def solJson (qs : List (Int × String)) : Json :=
  .arr (qs.map (fun q => Json.arr [.num q.1, .str q.2]))

/-- The C9 counterexample document: a structurally valid pinpoint response
whose first solution is JSON null. -/
def c9doc : Json :=
  .obj [("included", .arr
    [ .obj [("gamePuzzle", .obj [("blueprintGamePuzzle", .obj [("solutions", .arr [.null])])])] ])]

/-- A structurally valid pinpoint response with a truthy solution, used by
the C6 witness run. -/
def pinpointGoodDoc : Json :=
  .obj [("included", .arr
    [ .obj [("gamePuzzle", .obj [("blueprintGamePuzzle", .obj
        [("solutions", .arr [.str "CAT", .str "DOG"])])])] ])]

/-- The C6 witness document stream: absent on polls 0, 1, 2, a real response
from poll 3 on. -/
def c6docs : Nat → Json :=
  fun k => if k < 3 then .null else pinpointGoodDoc

/-- The C10 document streams: the tango game always sees a response with an
empty token list, every other game sees nothing. -/
def c10docs : String → Nat → Json :=
  fun g _ => if g == "tango" then mkTangoDoc [] else .null

/-- The C10 deadlines: two polls per game. -/
def c10fuel : String → Nat := fun _ => 2

theorem find_game_response_eq_spec (gameTypeId : Nat) (reqs : List Request) :
    findGameResponse gameTypeId reqs = specFindGameResponse gameTypeId reqs := by
  induction reqs with
  | nil => rfl
  | cons r rest ih =>
    by_cases hr : r.hasResponse = true
    · by_cases hu : urlMatchesGame r.url gameTypeId = true
      · cases hb : r.body with
        | some doc =>
          have hc : claimMatch gameTypeId r = true := by
            simp [claimMatch, hr, hu, hb]
          simp [findGameResponse, specFindGameResponse, specFindMatch, hr, hu, hb, hc]
        | none =>
          have hc : claimMatch gameTypeId r = false := by
            simp [claimMatch, hb]
          simp [findGameResponse, specFindGameResponse, specFindMatch, hr, hu, hb, hc]
          rw [ih]
          rfl
      · have hc : claimMatch gameTypeId r = false := by
          simp [claimMatch, hu]
        simp [findGameResponse, specFindGameResponse, specFindMatch, hr, hu, hc]
        rw [ih]
        rfl
    · have hc : claimMatch gameTypeId r = false := by
        simp [claimMatch, hr]
      simp [findGameResponse, specFindGameResponse, specFindMatch, hr, hc]
      rw [ih]
      rfl

theorem specFindMatch_claimMatch (gameTypeId : Nat) (reqs : List Request) (r : Request)
    (h : specFindMatch gameTypeId reqs = some r) : claimMatch gameTypeId r = true := by
  induction reqs with
  | nil => exact Option.noConfusion h
  | cons q rest ih =>
    by_cases hq : claimMatch gameTypeId q = true
    · simp [specFindMatch, hq] at h
      rw [← h]
      exact hq
    · simp [specFindMatch, hq] at h
      exact ih h

/-- C2: _find_game_response returns the decoded JSON of the earliest captured
exchange that has a response, whose URL contains "voyager/api/graphql",
"gameTypeId:" with the decimal id, and "voyagerIdentityDashGames" but not
"voyagerIdentityDashGamesPages", and whose body decodes as JSON; exchanges
whose body fails to decode are skipped and scanning continues, and when no
exchange qualifies the result is absent (None), not an error.  In particular
the chosen exchange never has "voyagerIdentityDashGamesPages" in its URL. -/
theorem find_game_response_spec (gameTypeId : Nat) (reqs : List Request) :
    findGameResponse gameTypeId reqs = specFindGameResponse gameTypeId reqs ∧
    (∀ r, specFindMatch gameTypeId reqs = some r →
      strContains r.url "voyagerIdentityDashGamesPages" = false) := by
  refine ⟨find_game_response_eq_spec gameTypeId reqs, ?_⟩
  intro r hr
  have hp : claimMatch gameTypeId r = true := specFindMatch_claimMatch gameTypeId reqs r hr
  by_contra hne
  have htrue : strContains r.url "voyagerIdentityDashGamesPages" = true := by
    cases hx : strContains r.url "voyagerIdentityDashGamesPages" with
    | true => rfl
    | false => exact absurd hx hne
  unfold claimMatch urlMatchesGame at hp
  rw [htrue] at hp
  simp at hp

theorem find_game_response_spec_witness :
    findGameResponse 1 c2reqs = specFindGameResponse 1 c2reqs ∧
    strContains c2good.url "voyagerIdentityDashGamesPages" = false :=
  ⟨(find_game_response_spec 1 c2reqs).1,
   (find_game_response_spec 1 c2reqs).2 c2good rfl⟩

/-- C1 counterexample: the claim assigns the identifiers 1, 2, 3, 5, 6, 7 to
pinpoint, crossclimb, zip, queens, tango, mini_sudoku in that order, hence
zip 3, queens 5, tango 6; the table in solver.py maps zip to 6, queens to 3
and tango to 5, so the claimed assignment is false. -/
theorem game_type_ids_claim_false :
    ¬ (GAME_TYPE_IDS.lookup "zip" = some 3 ∧ GAME_TYPE_IDS.lookup "queens" = some 5 ∧
       GAME_TYPE_IDS.lookup "tango" = some 6) := by
  decide

/-- C1 amended: the table assigns 1, 2, 3, 5, 6, 7 to pinpoint, crossclimb,
queens, tango, zip, mini_sudoku respectively; the identifiers are pairwise
distinct, 4 is not among them, and the table is a process-wide constant (a
plain definition here, a class attribute in the source, never written to). -/
theorem game_type_ids_table :
    GAME_TYPE_IDS.lookup "pinpoint" = some 1 ∧
    GAME_TYPE_IDS.lookup "crossclimb" = some 2 ∧
    GAME_TYPE_IDS.lookup "queens" = some 3 ∧
    GAME_TYPE_IDS.lookup "tango" = some 5 ∧
    GAME_TYPE_IDS.lookup "zip" = some 6 ∧
    GAME_TYPE_IDS.lookup "mini_sudoku" = some 7 ∧
    GAME_TYPE_IDS.map Prod.snd = [1, 2, 3, 5, 6, 7] ∧
    (GAME_TYPE_IDS.map Prod.snd).Nodup ∧
    4 ∉ GAME_TYPE_IDS.map Prod.snd := by
  decide

theorem exPure (a : α) : (pure a : Except String α) = Except.ok a := rfl

theorem exBind_ok (a : α) (f : α → Except String β) :
    (Except.ok a >>= f : Except String β) = f a := rfl

theorem exBind_err (e : String) (f : α → Except String β) :
    (Except.error e >>= f : Except String β) = Except.error e := rfl

theorem store_get_set_self (st : Store) (k : String) (v : Json) :
    Store.get (Store.set st k v) k = some v := by
  induction st with
  | nil => simp [Store.set, Store.get, List.lookup]
  | cons p rest ih =>
    obtain ⟨k0, v0⟩ := p
    by_cases h : k0 = k
    · simp [Store.set, Store.get, List.lookup, h]
    · have hb1 : (k0 == k) = false := by simp [h]
      have hb2 : (k == k0) = false := by simp [Ne.symm h]
      simp [Store.set, Store.get, List.lookup, hb1, hb2]
      exact ih

theorem store_get_set_ne (st : Store) (k j : String) (v : Json) (h : j ≠ k) :
    Store.get (Store.set st k v) j = Store.get st j := by
  have hb : (j == k) = false := by simp [h]
  induction st with
  | nil => simp [Store.set, Store.get, List.lookup, hb]
  | cons p rest ih =>
    obtain ⟨k0, v0⟩ := p
    by_cases hk : k0 = k
    · subst hk
      simp [Store.set, Store.get, List.lookup, hb]
    · have hb1 : (k0 == k) = false := by simp [hk]
      by_cases hj : j = k0
      · subst hj
        simp [Store.set, Store.get, List.lookup, hb1]
      · have hb2 : (j == k0) = false := by simp [hj]
        simp [Store.set, Store.get, List.lookup, hb1, hb2]
        exact ih

theorem store_get_set_isSome (st : Store) (k j : String) (v : Json)
    (h : (Store.get st j).isSome = true) : (Store.get (Store.set st k v) j).isSome = true := by
  by_cases hj : j = k
  · subst hj
    simp [store_get_set_self]
  · rwa [store_get_set_ne st k j v hj]

/-- C3 counterexample: in c3doc the first included element has a non-null
(but empty, hence falsy) miniSudokuGamePuzzle, so the claimed locator picks
it; that object has no solution key, so under the claim the extraction would
be absent.  The code instead skips the falsy element, uses the second one,
and returns its solution — a present, non-absent result — so the claim that
the first non-null element is used is false on this input. -/
theorem mini_sudoku_claim_false :
    scanNonNull c3items = some (Json.obj []) ∧
    (Json.obj []).getKey "solution" = .error "KeyError" ∧
    miniSudokuFromData c3doc [] =
      .ok (.arr [.num 1, .num 2, .num 3, .num 4],
        [("mini_sudoku", .obj [("solution", .arr [.num 1, .num 2, .num 3, .num 4]),
          ("grid_size", .num 2), ("preset_cells", .arr []), ("title", .str "Unknown")])]) ∧
    Json.arr [.num 1, .num 2, .num 3, .num 4] ≠ Json.null :=
  ⟨rfl, rfl, rfl, fun h => Json.noConfusion h⟩

/-- C4: on a document carrying a list of string tokens at the tango payload
path, the extractor returns the string that maps each token to the character
one when it equals ONE and zero otherwise, concatenated in input order, and
stores it under "tango"; the output length equals the input length; the
concrete list ONE, TWO, ONE encodes to 101; and the empty list yields the
empty string, a present (non-None) result that is still written to the
store. -/
theorem tango_extractor_spec (xs : List String) (st : Store) :
    tangoFromData (mkTangoDoc (xs.map Json.str)) st =
      .ok (.str (tangoStr xs), st.set "tango" (.str (tangoStr xs))) ∧
    (tangoStr xs).length = xs.length ∧
    tangoStr ["ONE", "TWO", "ONE"] = "101" ∧
    tangoStr [] = "" ∧
    tangoFromData (mkTangoDoc []) st = .ok (.str "", st.set "tango" (.str "")) ∧
    Json.str "" ≠ Json.null := by
  have he : tangoEncode (xs.map Json.str) = tangoStr xs := by
    unfold tangoEncode tangoStr
    rw [List.map_map]
    rfl
  refine ⟨?_, ?_, rfl, rfl, rfl, fun h => Json.noConfusion h⟩
  · have h1 : tangoFromData (mkTangoDoc (xs.map Json.str)) st =
        .ok (.str (tangoEncode (xs.map Json.str)),
          st.set "tango" (.str (tangoEncode (xs.map Json.str)))) := rfl
    rw [h1, he]
  · unfold tangoStr
    simp [String.length]

/-- C5 counterexample: on a zip document with orderedSequence [1],
solution [2] and gridSize 3, the store entry under "zip" is the solution
field [2], not the orderedSequence [1] the claim requires. -/
theorem zip_store_claim_false :
    zipFromData (mkZipDoc (.arr [.num 1]) (.arr [.num 2]) (.num 3)) [] =
      .ok (.arr [.num 1],
        [("zip", .arr [.num 2]), ("zip_sequence", .arr [.num 1]), ("zip_grid", .num 3)]) ∧
    Store.get [("zip", Json.arr [.num 2]), ("zip_sequence", Json.arr [.num 1]),
        ("zip_grid", Json.num 3)] "zip" = some (.arr [.num 2]) ∧
    Json.arr [.num 2] ≠ Json.arr [.num 1] := by
  refine ⟨rfl, rfl, fun h => ?_⟩
  injection h with h1
  injection h1 with h2 h3
  injection h2 with h4
  exact absurd h4 (by decide)

/-- C5 amended: for every zip document the extractor records the solution
field under "zip", the orderedSequence field under "zip_sequence" and the
gridSize field under "zip_grid", and returns the orderedSequence value from
the extraction. -/
theorem zip_extractor_amended (seq sol grid : Json) (st : Store) :
    zipFromData (mkZipDoc seq sol grid) st =
      .ok (seq, ((st.set "zip" sol).set "zip_sequence" seq).set "zip_grid" grid) ∧
    Store.get (((st.set "zip" sol).set "zip_sequence" seq).set "zip_grid" grid) "zip"
      = some sol ∧
    Store.get (((st.set "zip" sol).set "zip_sequence" seq).set "zip_grid" grid) "zip_sequence"
      = some seq ∧
    Store.get (((st.set "zip" sol).set "zip_sequence" seq).set "zip_grid" grid) "zip_grid"
      = some grid := by
  refine ⟨rfl, ?_, ?_, ?_⟩
  · rw [store_get_set_ne _ _ _ _ (by decide), store_get_set_ne _ _ _ _ (by decide),
      store_get_set_self]
  · rw [store_get_set_ne _ _ _ _ (by decide), store_get_set_self]
  · rw [store_get_set_self]

/-- C10: on an empty tango token list the extractor writes the empty string
under "tango" and returns it; the empty string is falsy, so the polling loop
keeps probing to the deadline and solve_tango ends in the timeout branch with
the empty string as its return value; solve_all_games therefore omits tango
from its returned mapping while the results store still carries the "tango"
entry with the empty string. -/
theorem tango_empty_string_edge :
    tangoFromData (mkTangoDoc []) [] = .ok (.str "", [("tango", .str "")]) ∧
    (Json.str "").truthy = false ∧
    Json.str "" ≠ Json.null ∧
    solveTango (fun _ => mkTangoDoc []) 2 [] = .ok (.str "", [("tango", .str "")], 2) ∧
    solveAllGames c10docs c10fuel [] = .ok ([], [("tango", .str "")]) ∧
    Store.get ([] : Store) "tango" = none ∧
    Store.get [("tango", Json.str "")] "tango" = some (.str "") :=
  ⟨rfl, rfl, fun h => Json.noConfusion h, rfl, rfl, rfl, rfl⟩

theorem pinpointFromData_eq_res (d : Json) (st : Store) :
    pinpointFromData d st =
      .ok (match pinpointRes d with
        | some v => (v, st.set "pinpoint" v)
        | none => (Json.null, st)) := by
  unfold pinpointFromData pinpointRes
  by_cases hd : d.truthy = true
  · simp only [hd, if_true]
    cases hb : pinpointBody d <;> simp [hb, Except.toOption]
  · simp only [Bool.not_eq_true] at hd
    simp [hd]

theorem pollSteps_timeout (step : Nat → Store → Except String (Json × Store)) :
    ∀ (fuel k att : Nat) (st : Store),
      (∀ i, i < fuel → ∀ s2, step (k + i) s2 = .ok (Json.null, s2)) →
      pollSteps step k fuel Json.null st att = .ok (Json.null, st, att + fuel) := by
  intro fuel
  induction fuel with
  | zero =>
    intro k att st _
    simp [pollSteps]
  | succ n ih =>
    intro k att st h
    have h0 : step k st = .ok (Json.null, st) := by
      have := h 0 (Nat.succ_pos n) st
      simpa using this
    have hrec := ih (k + 1) (att + 1) st (fun i hi s2 => by
      have := h (i + 1) (Nat.succ_lt_succ hi) s2
      rwa [show k + (i + 1) = k + 1 + i from by omega] at this)
    rw [show att + (n + 1) = (att + 1) + n from by omega]
    rw [show pollSteps step k (n + 1) Json.null st att =
      (step k st >>= fun p => if p.1.truthy then .ok (p.1, p.2, att + 1)
        else pollSteps step (k + 1) n p.1 p.2 (att + 1)) from rfl]
    rw [h0, exBind_ok]
    exact hrec

theorem pollSteps_success (step : Nat → Store → Except String (Json × Store)) :
    ∀ (m k fuel att : Nat) (st : Store) (v : Json) (st2 : Store),
      m < fuel →
      (∀ i, i < m → ∀ s2, step (k + i) s2 = .ok (Json.null, s2)) →
      step (k + m) st = .ok (v, st2) →
      v.truthy = true →
      pollSteps step k fuel Json.null st att = .ok (v, st2, att + m + 1) := by
  intro m
  induction m with
  | zero =>
    intro k fuel att st v st2 hm _ hs hv
    obtain ⟨n, rfl⟩ : ∃ n, fuel = n + 1 := ⟨fuel - 1, by omega⟩
    rw [Nat.add_zero] at hs
    rw [show pollSteps step k (n + 1) Json.null st att =
      (step k st >>= fun p => if p.1.truthy then .ok (p.1, p.2, att + 1)
        else pollSteps step (k + 1) n p.1 p.2 (att + 1)) from rfl]
    rw [hs, exBind_ok]
    simp [hv]
  | succ mm ih =>
    intro k fuel att st v st2 hm hb hs hv
    obtain ⟨n, rfl⟩ : ∃ n, fuel = n + 1 := ⟨fuel - 1, by omega⟩
    have h0 : step k st = .ok (Json.null, st) := by
      have := hb 0 (by omega) st
      simpa using this
    have hrec := ih (k + 1) n (att + 1) st v st2 (by omega)
      (fun i hi s2 => by
        have := hb (i + 1) (by omega) s2
        rwa [show k + (i + 1) = k + 1 + i from by omega] at this)
      (by rwa [show k + 1 + mm = k + (mm + 1) from by omega])
      hv
    rw [show att + (mm + 1) + 1 = (att + 1) + mm + 1 from by omega]
    rw [show pollSteps step k (n + 1) Json.null st att =
      (step k st >>= fun p => if p.1.truthy then .ok (p.1, p.2, att + 1)
        else pollSteps step (k + 1) n p.1 p.2 (att + 1)) from rfl]
    rw [h0, exBind_ok]
    exact hrec

/-- C6: the per-game polling loop of solve_pinpoint.  First part: when the
first m extraction attempts are absent (leaving the store untouched) and the
attempt at poll m produces a truthy solution, the loop returns exactly that
solution, writes it under "pinpoint", and makes exactly m + 1 attempts — no
further extraction attempt happens after success.  Second part: when every
attempt before the deadline is absent, the loop makes exactly fuel attempts,
returns None and leaves the store without any entry for the game (the code
then logs a warning and solve_all_games moves on to the next game). -/
theorem solve_pinpoint_polling (docs : Nat → Json) (fuel m : Nat) (st : Store) (s : Json) :
    (m < fuel →
      (∀ i, i < m → pinpointRes (docs i) = none) →
      pinpointRes (docs m) = some s →
      s.truthy = true →
      solvePinpoint docs fuel st = .ok (s, st.set "pinpoint" s, m + 1) ∧
        Store.get (st.set "pinpoint" s) "pinpoint" = some s) ∧
    ((∀ i, i < fuel → pinpointRes (docs i) = none) →
      solvePinpoint docs fuel st = .ok (Json.null, st, fuel)) := by
  constructor
  · intro hm hbefore hres hv
    have hstep : ∀ i, i < m → ∀ s2 : Store,
        pinpointFromData (docs (0 + i)) s2 = .ok (Json.null, s2) := by
      intro i hi s2
      rw [Nat.zero_add, pinpointFromData_eq_res, hbefore i hi]
    have hsucc : pinpointFromData (docs (0 + m)) st = .ok (s, st.set "pinpoint" s) := by
      rw [Nat.zero_add, pinpointFromData_eq_res, hres]
    have h := pollSteps_success (fun k st2 => pinpointFromData (docs k) st2)
      m 0 fuel 0 st s (st.set "pinpoint" s) hm hstep hsucc hv
    rw [Nat.zero_add] at h
    exact ⟨h, store_get_set_self st "pinpoint" s⟩
  · intro habs
    have hstep : ∀ i, i < fuel → ∀ s2 : Store,
        pinpointFromData (docs (0 + i)) s2 = .ok (Json.null, s2) := by
      intro i hi s2
      rw [Nat.zero_add, pinpointFromData_eq_res, habs i hi]
    have h := pollSteps_timeout (fun k st2 => pinpointFromData (docs k) st2)
      fuel 0 0 st hstep
    rwa [Nat.zero_add] at h

/-- A concrete run of the C6 theorem: three absent polls, then a response
with solution CAT; the loop stops after the fourth attempt with CAT recorded. -/
theorem solve_pinpoint_polling_witness :
    solvePinpoint c6docs 10 [] = .ok (.str "CAT", Store.set [] "pinpoint" (.str "CAT"), 3 + 1) ∧
      Store.get (Store.set [] "pinpoint" (.str "CAT")) "pinpoint" = some (.str "CAT") :=
  (solve_pinpoint_polling c6docs 10 3 [] (.str "CAT")).1 (by omega)
    (by intro i hi; interval_cases i <;> rfl) rfl rfl

theorem pinpointFromData_ok (d : Json) (st : Store) :
    ∃ p, pinpointFromData d st = .ok p := by
  unfold pinpointFromData
  by_cases hd : d.truthy = true
  · cases hb : pinpointBody d <;> simp [hd, hb]
  · simp only [Bool.not_eq_true] at hd
    simp [hd]

theorem crossclimbFromData_ok (d : Json) (st : Store) :
    ∃ p, crossclimbFromData d st = .ok p := by
  unfold crossclimbFromData
  by_cases hd : d.truthy = true
  · cases hb : crossclimbBody d <;> simp [hd, hb]
  · simp only [Bool.not_eq_true] at hd
    simp [hd]

theorem zipFromData_ok (d : Json) (st : Store) :
    ∃ p, zipFromData d st = .ok p := by
  unfold zipFromData
  by_cases hd : d.truthy = true
  · cases hb : zipBody d with
    | ok trip =>
      obtain ⟨a, b, c⟩ := trip
      simp [hd, hb]
    | error e => simp [hd, hb]
  · simp only [Bool.not_eq_true] at hd
    simp [hd]

theorem queensFromData_ok (d : Json) (st : Store) :
    ∃ p, queensFromData d st = .ok p := by
  unfold queensFromData
  by_cases hd : d.truthy = true
  · cases hb : queensBody d with
    | ok trip =>
      obtain ⟨a, b, c⟩ := trip
      simp [hd, hb]
    | error e => simp [hd, hb]
  · simp only [Bool.not_eq_true] at hd
    simp [hd]

theorem tangoFromData_ok (d : Json) (st : Store) :
    ∃ p, tangoFromData d st = .ok p := by
  unfold tangoFromData
  by_cases hd : d.truthy = true
  · cases hb : tangoBody d <;> simp [hd, hb]
  · simp only [Bool.not_eq_true] at hd
    simp [hd]

theorem miniSudokuFromData_ok (d : Json) (st : Store) :
    ∃ p, miniSudokuFromData d st = .ok p := by
  unfold miniSudokuFromData
  by_cases hd : d.truthy = true
  · cases hb : miniBody d with
    | ok o =>
      cases o with
      | none => simp [hd, hb]
      | some q =>
        obtain ⟨a, b, c, e⟩ := q
        simp [hd, hb]
    | error e => simp [hd, hb]
  · simp only [Bool.not_eq_true] at hd
    simp [hd]

theorem pollSteps_ok (step : Nat → Store → Except String (Json × Store))
    (hstep : ∀ k s, ∃ p, step k s = .ok p) :
    ∀ (fuel k : Nat) (sol : Json) (st : Store) (att : Nat),
      ∃ q, pollSteps step k fuel sol st att = .ok q := by
  intro fuel
  induction fuel with
  | zero => intro k sol st att; exact ⟨_, rfl⟩
  | succ n ih =>
    intro k sol st att
    by_cases hs : sol.truthy = true
    · exact ⟨(sol, st, att), by simp [pollSteps, hs]⟩
    · simp only [Bool.not_eq_true] at hs
      obtain ⟨⟨s, st2⟩, h⟩ := hstep k st
      by_cases hs2 : s.truthy = true
      · refine ⟨(s, st2, att + 1), ?_⟩
        simp [pollSteps, hs, h, exBind_ok, hs2]
      · simp only [Bool.not_eq_true] at hs2
        obtain ⟨q, hq⟩ := ih (k + 1) s st2 (att + 1)
        refine ⟨q, ?_⟩
        simp [pollSteps, hs, h, exBind_ok, hs2, hq]

theorem solvePinpoint_ok (docs : Nat → Json) (fuel : Nat) (st : Store) :
    ∃ q, solvePinpoint docs fuel st = .ok q :=
  pollSteps_ok _ (fun k s => pinpointFromData_ok (docs k) s) fuel 0 .null st 0

theorem solveCrossclimb_ok (docs : Nat → Json) (fuel : Nat) (st : Store) :
    ∃ q, solveCrossclimb docs fuel st = .ok q :=
  pollSteps_ok _ (fun k s => crossclimbFromData_ok (docs k) s) fuel 0 .null st 0

theorem solveZip_ok (docs : Nat → Json) (fuel : Nat) (st : Store) :
    ∃ q, solveZip docs fuel st = .ok q :=
  pollSteps_ok _ (fun k s => zipFromData_ok (docs k) s) fuel 0 .null st 0

theorem solveQueens_ok (docs : Nat → Json) (fuel : Nat) (st : Store) :
    ∃ q, solveQueens docs fuel st = .ok q :=
  pollSteps_ok _ (fun k s => queensFromData_ok (docs k) s) fuel 0 .null st 0

theorem solveTango_ok (docs : Nat → Json) (fuel : Nat) (st : Store) :
    ∃ q, solveTango docs fuel st = .ok q :=
  pollSteps_ok _ (fun k s => tangoFromData_ok (docs k) s) fuel 0 .null st 0

theorem solveMiniSudoku_ok (docs : Nat → Json) (fuel : Nat) (st : Store) :
    ∃ q, solveMiniSudoku docs fuel st = .ok q :=
  pollSteps_ok _ (fun k s => miniSudokuFromData_ok (docs k) s) fuel 0 .null st 0

theorem solveAllGames_ok (docs : String → Nat → Json) (fuel : String → Nat) (st : Store) :
    ∃ q, solveAllGames docs fuel st = .ok q := by
  obtain ⟨⟨p, st1, a1⟩, h1⟩ := solvePinpoint_ok (docs "pinpoint") (fuel "pinpoint") st
  obtain ⟨⟨c, st2, a2⟩, h2⟩ := solveCrossclimb_ok (docs "crossclimb") (fuel "crossclimb") st1
  obtain ⟨⟨z, st3, a3⟩, h3⟩ := solveZip_ok (docs "zip") (fuel "zip") st2
  obtain ⟨⟨q, st4, a4⟩, h4⟩ := solveQueens_ok (docs "queens") (fuel "queens") st3
  obtain ⟨⟨t, st5, a5⟩, h5⟩ := solveTango_ok (docs "tango") (fuel "tango") st4
  obtain ⟨⟨mn, st6, a6⟩, h6⟩ := solveMiniSudoku_ok (docs "mini_sudoku") (fuel "mini_sudoku") st5
  simp only [solveAllGames, h1, h2, h3, h4, h5, h6, exBind_ok]
  exact ⟨_, rfl⟩

/-- C7: on every input document, of any JSON shape, each of the six
extractors runs to completion without an uncaught exception, producing either
a solution or the absent value (every subscript, attribute and iteration
failure is modelled in the Except layer, and the try/except of each extractor
converts it to an absent return); consequently a whole solve_all_games run,
over arbitrary per-game document streams and deadlines, also never raises, so
no failure in one attempt aborts the polling loop for that game or the
processing of subsequent games. -/
theorem extractors_never_raise (d : Json) (st : Store)
    (docs : String → Nat → Json) (fuel : String → Nat) :
    okB (pinpointFromData d st) = true ∧
    okB (crossclimbFromData d st) = true ∧
    okB (zipFromData d st) = true ∧
    okB (queensFromData d st) = true ∧
    okB (tangoFromData d st) = true ∧
    okB (miniSudokuFromData d st) = true ∧
    okB (solveAllGames docs fuel st) = true := by
  refine ⟨?_, ?_, ?_, ?_, ?_, ?_, ?_⟩
  · obtain ⟨p, h⟩ := pinpointFromData_ok d st
    rw [h]; rfl
  · obtain ⟨p, h⟩ := crossclimbFromData_ok d st
    rw [h]; rfl
  · obtain ⟨p, h⟩ := zipFromData_ok d st
    rw [h]; rfl
  · obtain ⟨p, h⟩ := queensFromData_ok d st
    rw [h]; rfl
  · obtain ⟨p, h⟩ := tangoFromData_ok d st
    rw [h]; rfl
  · obtain ⟨p, h⟩ := miniSudokuFromData_ok d st
    rw [h]; rfl
  · obtain ⟨p, h⟩ := solveAllGames_ok docs fuel st
    rw [h]; rfl

theorem crossclimb_keyed (ps : List (Int × String)) :
    exMapM (fun x => do
      let k ← x.getKey "solutionRungIndex"
      pure (k, x)) (ps.map (fun p => mkRungJ p.1 p.2)) = .ok (ps.map rungPhi) := by
  induction ps with
  | nil => rfl
  | cons p ps ih =>
    simp only [List.map_cons, exMapM, ih, exBind_ok]
    rfl

theorem insertSorted_phi (p : Int × String) (qs : List (Int × String)) :
    insertSorted (fun a b => pyLt a.fst b.fst) (rungPhi p) (qs.map rungPhi) =
      .ok ((insertPairs p qs).map rungPhi) := by
  induction qs with
  | nil => rfl
  | cons q qs ih =>
    have hins : insertSorted (fun a b => pyLt a.fst b.fst) (rungPhi p)
        ((q :: qs).map rungPhi) = (do
          let b ← pyLt (rungPhi q).fst (rungPhi p).fst
          if b then
            let r ← insertSorted (fun a b => pyLt a.fst b.fst) (rungPhi p) (qs.map rungPhi)
            pure (rungPhi q :: r)
          else
            pure (rungPhi p :: rungPhi q :: qs.map rungPhi)) := rfl
    have hcmp : pyLt (rungPhi q).fst (rungPhi p).fst = .ok (decide (q.1 < p.1)) := rfl
    rw [hins, hcmp, exBind_ok]
    by_cases hlt : q.1 < p.1
    · have hd : decide (q.1 < p.1) = true := by simpa using hlt
      rw [hd, if_pos rfl, ih, exBind_ok, exPure,
        show insertPairs p (q :: qs) = q :: insertPairs p qs from by simp [insertPairs, hlt]]
      rfl
    · have hd : decide (q.1 < p.1) = false := by simpa using hlt
      rw [hd, if_neg (by simp), exPure,
        show insertPairs p (q :: qs) = p :: q :: qs from by simp [insertPairs, hlt]]
      rfl

theorem sortStable_phi (ps : List (Int × String)) :
    sortStable (fun a b => pyLt a.fst b.fst) (ps.map rungPhi) =
      .ok ((sortPairs ps).map rungPhi) := by
  induction ps with
  | nil => rfl
  | cons p ps ih =>
    simp only [List.map_cons, sortStable, sortPairs, ih, exBind_ok]
    exact insertSorted_phi p (sortPairs ps)

theorem crossclimb_out (qs : List (Int × String)) :
    exMapM (fun p => do
      let i ← p.snd.getKey "solutionRungIndex"
      let w ← p.snd.getKey "word"
      pure (Json.arr [i, w])) (qs.map rungPhi) =
      .ok (qs.map (fun q => Json.arr [.num q.1, .str q.2])) := by
  induction qs with
  | nil => rfl
  | cons q qs ih =>
    simp only [List.map_cons, exMapM, ih, exBind_ok]
    rfl

theorem mem_insertPairs {p x : Int × String} :
    ∀ {l : List (Int × String)}, x ∈ insertPairs p l → x = p ∨ x ∈ l := by
  intro l
  induction l with
  | nil =>
    intro h
    simp [insertPairs] at h
    exact Or.inl h
  | cons q qs ih =>
    intro h
    by_cases hlt : q.1 < p.1
    · simp only [insertPairs, hlt, if_true, List.mem_cons] at h
      rcases h with h | h
      · exact Or.inr (List.mem_cons.mpr (Or.inl h))
      · rcases ih h with h2 | h2
        · exact Or.inl h2
        · exact Or.inr (List.mem_cons.mpr (Or.inr h2))
    · simp only [insertPairs, hlt, if_false, List.mem_cons] at h
      rcases h with h | h
      · exact Or.inl h
      · exact Or.inr (List.mem_cons.mpr h)

theorem pairwise_insertPairs (p : Int × String) :
    ∀ l, List.Pairwise (fun a b : Int × String => a.1 ≤ b.1) l →
      List.Pairwise (fun a b : Int × String => a.1 ≤ b.1) (insertPairs p l) := by
  intro l
  induction l with
  | nil => intro _; exact List.pairwise_singleton _ _
  | cons q qs ih =>
    intro h
    rw [List.pairwise_cons] at h
    obtain ⟨h1, h2⟩ := h
    by_cases hlt : q.1 < p.1
    · rw [show insertPairs p (q :: qs) = q :: insertPairs p qs from by
        simp [insertPairs, hlt]]
      rw [List.pairwise_cons]
      refine ⟨?_, ih h2⟩
      intro x hx
      rcases mem_insertPairs hx with rfl | hxq
      · exact le_of_lt hlt
      · exact h1 x hxq
    · rw [show insertPairs p (q :: qs) = p :: q :: qs from by
        simp [insertPairs, hlt]]
      push_neg at hlt
      rw [List.pairwise_cons]
      refine ⟨?_, List.pairwise_cons.mpr ⟨h1, h2⟩⟩
      intro x hx
      rcases List.mem_cons.mp hx with rfl | hxqs
      · exact hlt
      · exact le_trans hlt (h1 x hxqs)

theorem sortPairs_pairwise (ps : List (Int × String)) :
    List.Pairwise (fun a b : Int × String => a.1 ≤ b.1) (sortPairs ps) := by
  induction ps with
  | nil => exact List.Pairwise.nil
  | cons p ps ih => exact pairwise_insertPairs p (sortPairs ps) ih

theorem filter_insertPairs (p : Int × String) (k : Int) :
    ∀ l, (insertPairs p l).filter (fun q => q.1 == k) =
      if p.1 == k then p :: l.filter (fun q => q.1 == k)
      else l.filter (fun q => q.1 == k) := by
  intro l
  induction l with
  | nil =>
    by_cases hp : p.1 == k <;> simp [insertPairs, List.filter, hp]
  | cons q qs ih =>
    by_cases hlt : q.1 < p.1
    · by_cases hp : (p.1 == k) = true
      · have hq : (q.1 == k) = false := by
          have hpk : p.1 = k := by
            have := hp
            simpa [beq_iff_eq] using this
          simp only [beq_eq_false_iff_ne]
          omega
        simp [insertPairs, hlt, List.filter_cons, hq, hp, ih]
      · have hp2 : (p.1 == k) = false := by
          cases hx : (p.1 == k) with
          | true => exact absurd hx hp
          | false => rfl
        by_cases hq : (q.1 == k) = true
        · simp [insertPairs, hlt, List.filter_cons, hq, hp2, ih]
        · have hq2 : (q.1 == k) = false := by
            cases hx : (q.1 == k) with
            | true => exact absurd hx hq
            | false => rfl
          simp [insertPairs, hlt, List.filter_cons, hq2, hp2, ih]
    · by_cases hp : (p.1 == k) = true
      · simp [insertPairs, hlt, List.filter_cons, hp]
      · have hp2 : (p.1 == k) = false := by
          cases hx : (p.1 == k) with
          | true => exact absurd hx hp
          | false => rfl
        simp [insertPairs, hlt, List.filter_cons, hp2]

theorem filter_sortPairs (k : Int) (ps : List (Int × String)) :
    (sortPairs ps).filter (fun q => q.1 == k) = ps.filter (fun q => q.1 == k) := by
  induction ps with
  | nil => rfl
  | cons p ps ih =>
    rw [show sortPairs (p :: ps) = insertPairs p (sortPairs ps) from rfl,
      filter_insertPairs p k (sortPairs ps), ih]
    by_cases hp : (p.1 == k) = true
    · simp [List.filter_cons, hp]
    · have hp2 : (p.1 == k) = false := by
        cases hx : (p.1 == k) with
        | true => exact absurd hx hp
        | false => rfl
      simp [List.filter_cons, hp2]

/-- C8: for every list of rung pairs, the crossclimb extractor outputs the
(solutionRungIndex, word) pairs stably sorted ascending by index: the output
equals the stable insertion sort of the input pairs, that sort is ascending
(pairwise ordered keys) and stable (the subsequence at each key value is
preserved, which with sortedness characterizes the unique stable sort), and
the concrete input (1,B), (0,A), (2,C) yields (0,A), (1,B), (2,C). -/
theorem crossclimb_sort_spec (ps : List (Int × String)) (st : Store) (k : Int) :
    crossclimbFromData (mkCrossclimbDoc ps) st =
      .ok (solJson (sortPairs ps), st.set "crossclimb" (solJson (sortPairs ps))) ∧
    List.Pairwise (fun a b : Int × String => a.1 ≤ b.1) (sortPairs ps) ∧
    (sortPairs ps).filter (fun q => q.1 == k) = ps.filter (fun q => q.1 == k) ∧
    sortPairs [(1, "B"), (0, "A"), (2, "C")] = [(0, "A"), (1, "B"), (2, "C")] ∧
    crossclimbFromData (mkCrossclimbDoc [(1, "B"), (0, "A"), (2, "C")]) [] =
      .ok (.arr [.arr [.num 0, .str "A"], .arr [.num 1, .str "B"], .arr [.num 2, .str "C"]],
        [("crossclimb",
          .arr [.arr [.num 0, .str "A"], .arr [.num 1, .str "B"], .arr [.num 2, .str "C"]])]) := by
  refine ⟨?_, sortPairs_pairwise ps, filter_sortPairs k ps, rfl, rfl⟩
  have hstep : crossclimbBody (mkCrossclimbDoc ps) = (do
      let keyed ← exMapM (fun x => do
        let k2 ← x.getKey "solutionRungIndex"
        pure (k2, x)) (ps.map (fun p => mkRungJ p.1 p.2))
      let sorted ← sortStable (fun a b => pyLt a.fst b.fst) keyed
      let sol ← exMapM (fun p => do
        let i ← p.snd.getKey "solutionRungIndex"
        let w ← p.snd.getKey "word"
        pure (Json.arr [i, w])) sorted
      pure (Json.arr sol)) := rfl
  have hbody : crossclimbBody (mkCrossclimbDoc ps) = .ok (solJson (sortPairs ps)) := by
    rw [hstep, crossclimb_keyed, exBind_ok, sortStable_phi, exBind_ok, crossclimb_out, exBind_ok]
    rfl
  unfold crossclimbFromData
  rw [hbody]
  rfl

theorem exBind_ok_elim {e : Except String α} {f : α → Except String β} {v : β}
    (h : (e >>= f) = .ok v) : ∃ a, e = .ok a ∧ f a = .ok v := by
  cases e with
  | ok a => exact ⟨a, rfl, h⟩
  | error ee =>
    rw [exBind_err] at h
    exact Except.noConfusion h

theorem lookup_any_true (fs : List (String × Json)) (k : String) (v : Json)
    (h : fs.lookup k = some v) : fs.any (fun p => p.fst == k) = true := by
  induction fs with
  | nil => exact Option.noConfusion h
  | cons p rest ih =>
    obtain ⟨k0, v0⟩ := p
    by_cases hk : k = k0
    · subst hk
      simp [List.any_cons]
    · have hb : (k == k0) = false := by simp [hk]
      have hb2 : (k0 == k) = false := by simp [Ne.symm hk]
      rw [List.lookup, hb] at h
      rw [List.any_cons, hb2, Bool.false_or]
      exact ih h

theorem lookup_isEmpty_false (fs : List (String × Json)) (k : String) (v : Json)
    (h : fs.lookup k = some v) : fs.isEmpty = false := by
  cases fs with
  | nil => exact Option.noConfusion h
  | cons p rest => rfl

theorem miniScan_cons (item : Json) (rest : List Json) :
    miniScan (item :: rest) = (item.pyGet "gamePuzzle" >>= fun gp =>
      if gp.truthy then
        (gp.pyGet "miniSudokuGamePuzzle" >>= fun msp =>
          if msp.truthy then pure (some msp) else miniScan rest)
      else miniScan rest) := rfl

theorem miniScan_safe : ∀ items : List Json, items.all scanSafe = true →
    miniScan items = .ok (scanTruthy items) := by
  intro items
  induction items with
  | nil => intro _; rfl
  | cons item rest ih =>
    intro hall
    rw [List.all_cons, Bool.and_eq_true] at hall
    obtain ⟨hsafe, hrest⟩ := hall
    cases item with
    | obj fs =>
      cases hgp : fs.lookup "gamePuzzle" with
      | none =>
        have hip : scanItemPuzzle (Json.obj fs) = none := by
          simp [scanItemPuzzle, hgp]
        simp only [miniScan_cons, Json.pyGet, hgp, Option.getD_none, exBind_ok,
          scanTruthy, hip, Json.truthy, Bool.false_eq_true, ite_false, ite_self]
        exact ih hrest
      | some gp =>
        by_cases hgpt : gp.truthy = true
        · have hsafe3 : (match fs.lookup "gamePuzzle" with
              | some gp => !gp.truthy || isObjB gp
              | none => true) = true := hsafe
          rw [hgp] at hsafe3
          have hsafe4 : (!gp.truthy || isObjB gp) = true := hsafe3
          rw [hgpt] at hsafe4
          simp only [Bool.not_true, Bool.false_or] at hsafe4
          have hobj : ∃ gfs, gp = Json.obj gfs := by
            cases gp with
            | obj gfs => exact ⟨gfs, rfl⟩
            | null => exact absurd hsafe4 (by simp [isObjB])
            | bool b => exact absurd hsafe4 (by simp [isObjB])
            | num n => exact absurd hsafe4 (by simp [isObjB])
            | str s => exact absurd hsafe4 (by simp [isObjB])
            | arr xs => exact absurd hsafe4 (by simp [isObjB])
          obtain ⟨gfs, rfl⟩ := hobj
          cases hmsp : gfs.lookup "miniSudokuGamePuzzle" with
          | none =>
            have hip : scanItemPuzzle (Json.obj fs) = none := by
              simp [scanItemPuzzle, hgp, hgpt, hmsp]
            simp only [miniScan_cons, Json.pyGet, hgp, Option.getD_some, exBind_ok,
              hgpt, if_true, hmsp, Option.getD_none, scanTruthy, hip,
              Json.truthy, Bool.false_eq_true, ite_false, ite_self]
            exact ih hrest
          | some m =>
            have hip : scanItemPuzzle (Json.obj fs) = some m := by
              simp [scanItemPuzzle, hgp, hgpt, hmsp]
            by_cases hmt : m.truthy = true
            · simp only [miniScan_cons, Json.pyGet, hgp, Option.getD_some, exBind_ok,
                hgpt, if_true, hmsp, scanTruthy, hip, hmt, exPure, ite_self]
            · have hmt2 : m.truthy = false := by
                cases hx : m.truthy with
                | true => exact absurd hx hmt
                | false => rfl
              simp only [miniScan_cons, Json.pyGet, hgp, Option.getD_some, exBind_ok,
                hgpt, if_true, hmsp, scanTruthy, hip, hmt2,
                Bool.false_eq_true, ite_false]
              exact ih hrest
        · have hgpt2 : gp.truthy = false := by
            cases hx : gp.truthy with
            | true => exact absurd hx hgpt
            | false => rfl
          have hip : scanItemPuzzle (Json.obj fs) = none := by
            simp [scanItemPuzzle, hgp, hgpt2]
          simp only [miniScan_cons, Json.pyGet, hgp, Option.getD_some, exBind_ok,
            hgpt2, Bool.false_eq_true, ite_false, scanTruthy, hip]
          exact ih hrest
    | null => exact absurd hsafe (by simp [scanSafe])
    | bool b => exact absurd hsafe (by simp [scanSafe])
    | num n => exact absurd hsafe (by simp [scanSafe])
    | str s => exact absurd hsafe (by simp [scanSafe])
    | arr xs => exact absurd hsafe (by simp [scanSafe])

theorem miniScan_some : ∀ (items : List Json) (msp : Json),
    miniScan items = .ok (some msp) → scanTruthy items = some msp := by
  intro items
  induction items with
  | nil =>
    intro msp h
    simp [miniScan] at h
  | cons item rest ih =>
    intro msp h
    cases item with
    | obj fs =>
      cases hgp : fs.lookup "gamePuzzle" with
      | none =>
        have hip : scanItemPuzzle (Json.obj fs) = none := by
          simp [scanItemPuzzle, hgp]
        simp only [miniScan_cons, Json.pyGet, hgp, Option.getD_none, exBind_ok,
          Json.truthy, Bool.false_eq_true, ite_false, ite_self] at h
        simp only [scanTruthy, hip]
        exact ih msp h
      | some gp =>
        by_cases hgpt : gp.truthy = true
        · cases gp with
          | obj gfs =>
            cases hmsp : gfs.lookup "miniSudokuGamePuzzle" with
            | none =>
              have hip : scanItemPuzzle (Json.obj fs) = none := by
                simp [scanItemPuzzle, hgp, hgpt, hmsp]
              simp only [miniScan_cons, Json.pyGet, hgp, Option.getD_some, exBind_ok,
                hgpt, if_true, hmsp, Option.getD_none,
                Json.truthy, Bool.false_eq_true, ite_false, ite_self] at h
              simp only [scanTruthy, hip]
              exact ih msp h
            | some m =>
              have hip : scanItemPuzzle (Json.obj fs) = some m := by
                simp [scanItemPuzzle, hgp, hgpt, hmsp]
              by_cases hmt : m.truthy = true
              · simp only [miniScan_cons, Json.pyGet, hgp, Option.getD_some, exBind_ok,
                  hgpt, if_true, hmsp, hmt, exPure, ite_self] at h
                injection h with h2
                simp only [scanTruthy, hip, hmt, if_true]
                exact h2
              · have hmt2 : m.truthy = false := by
                  cases hx : m.truthy with
                  | true => exact absurd hx hmt
                  | false => rfl
                simp only [miniScan_cons, Json.pyGet, hgp, Option.getD_some, exBind_ok,
                  hgpt, if_true, hmsp, hmt2, Bool.false_eq_true, ite_false] at h
                simp only [scanTruthy, hip, hmt2, Bool.false_eq_true, ite_false]
                exact ih msp h
          | null => exact absurd hgpt (by simp [Json.truthy])
          | bool b =>
            simp only [miniScan_cons, Json.pyGet, hgp, Option.getD_some, exBind_ok,
              hgpt, if_true, exBind_err] at h
            exact Except.noConfusion h
          | num n =>
            simp only [miniScan_cons, Json.pyGet, hgp, Option.getD_some, exBind_ok,
              hgpt, if_true, exBind_err] at h
            exact Except.noConfusion h
          | str s =>
            simp only [miniScan_cons, Json.pyGet, hgp, Option.getD_some, exBind_ok,
              hgpt, if_true, exBind_err] at h
            exact Except.noConfusion h
          | arr xs =>
            simp only [miniScan_cons, Json.pyGet, hgp, Option.getD_some, exBind_ok,
              hgpt, if_true, exBind_err] at h
            exact Except.noConfusion h
        · have hgpt2 : gp.truthy = false := by
            cases hx : gp.truthy with
            | true => exact absurd hx hgpt
            | false => rfl
          have hip : scanItemPuzzle (Json.obj fs) = none := by
            simp [scanItemPuzzle, hgp, hgpt2]
          simp only [miniScan_cons, Json.pyGet, hgp, Option.getD_some, exBind_ok,
            hgpt2, Bool.false_eq_true, ite_false] at h
          simp only [scanTruthy, hip]
          exact ih msp h
    | null =>
      simp only [miniScan_cons, Json.pyGet, exBind_err] at h
      exact Except.noConfusion h
    | bool b =>
      simp only [miniScan_cons, Json.pyGet, exBind_err] at h
      exact Except.noConfusion h
    | num n =>
      simp only [miniScan_cons, Json.pyGet, exBind_err] at h
      exact Except.noConfusion h
    | str s =>
      simp only [miniScan_cons, Json.pyGet, exBind_err] at h
      exact Except.noConfusion h
    | arr xs =>
      simp only [miniScan_cons, Json.pyGet, exBind_err] at h
      exact Except.noConfusion h


theorem miniFromData_absent (data : Json) (st : Store)
    (h : ∀ r, miniBody data ≠ .ok (some r)) :
    miniSudokuFromData data st = .ok (.null, st) := by
  unfold miniSudokuFromData
  by_cases hd : data.truthy = true
  · rw [if_pos hd]
    cases hb : miniBody data with
    | ok o =>
      cases o with
      | none => rfl
      | some r => exact absurd hb (h r)
    | error e => rfl
  · rw [if_neg hd]

theorem miniBody_some_locate (data : Json) (r : Json × Json × Json × Json)
    (h : miniBody data = .ok (some r)) : ∃ msp, specLocate data = some msp := by
  cases data with
  | null => simp [miniBody, Json.pyContainsKey, exBind_err] at h
  | bool b => simp [miniBody, Json.pyContainsKey, exBind_err] at h
  | num n => simp [miniBody, Json.pyContainsKey, exBind_err] at h
  | str s =>
    cases hc : strContains s "included" with
    | true =>
      simp [miniBody, Json.pyContainsKey, exBind_ok, hc, Json.getKey, exBind_err] at h
    | false =>
      simp [miniBody, Json.pyContainsKey, exBind_ok, hc, exPure] at h
  | arr xs =>
    cases hc : jsonStrMem "included" xs with
    | true =>
      simp [miniBody, Json.pyContainsKey, exBind_ok, hc, Json.getKey, exBind_err] at h
    | false =>
      simp [miniBody, Json.pyContainsKey, exBind_ok, hc, exPure] at h
  | obj fs =>
    simp only [miniBody, Json.pyContainsKey, exBind_ok] at h
    by_cases hany : (fs.any fun p => p.fst == "included") = true
    · rw [if_pos (by rw [hany])] at h
      cases hlk : fs.lookup "included" with
      | none => simp [Json.getKey, hlk, exBind_err] at h
      | some inc =>
        simp only [Json.getKey, hlk, exBind_ok] at h
        by_cases hinc : inc.truthy = true
        · rw [if_pos (by rw [hinc])] at h
          cases inc with
          | arr items =>
            simp only [Json.pyIter, exBind_ok] at h
            obtain ⟨found, hscan, hrest⟩ := exBind_ok_elim h
            cases found with
            | none => simp [exPure] at hrest
            | some msp =>
              refine ⟨msp, ?_⟩
              simp [specLocate, hlk, miniScan_some items msp hscan]
          | str s =>
            obtain ⟨sd⟩ := s
            cases sd with
            | nil => exact absurd hinc (by decide)
            | cons c cs =>
              simp only [Json.pyIter, exBind_ok] at h
              rw [show (String.mk (c :: cs)).toList.map
                    (fun ch => Json.str (String.mk [ch]))
                  = Json.str (String.mk [c])
                    :: cs.map (fun ch => Json.str (String.mk [ch])) from rfl] at h
              rw [show miniScan (Json.str (String.mk [c])
                    :: cs.map (fun ch => Json.str (String.mk [ch])))
                  = Except.error "AttributeError: no method get" from rfl, exBind_err] at h
              exact Except.noConfusion h
          | obj gfs =>
            cases gfs with
            | nil => exact absurd hinc (by decide)
            | cons p ps =>
              simp only [Json.pyIter, exBind_ok] at h
              rw [show (p :: ps).map (fun q : String × Json => Json.str q.fst)
                  = Json.str p.fst :: ps.map (fun q : String × Json => Json.str q.fst)
                  from rfl] at h
              rw [show miniScan (Json.str p.fst
                    :: ps.map (fun q : String × Json => Json.str q.fst))
                  = Except.error "AttributeError: no method get" from rfl, exBind_err] at h
              exact Except.noConfusion h
          | null => exact absurd hinc (by decide)
          | bool b => simp [Json.pyIter, exBind_err] at h
          | num n => simp [Json.pyIter, exBind_err] at h
        · rw [if_neg (by rw [Bool.not_eq_true] at hinc; rw [hinc]; simp)] at h
          simp [exPure] at h
    · rw [if_neg (by rw [Bool.not_eq_true] at hany; rw [hany]; simp)] at h
      simp [exPure] at h

/-- C3 amended: the mini_sudoku extractor linear-scans the included list and
uses the first element whose gamePuzzle.miniSudokuGamePuzzle field is truthy
(non-null, non-empty, non-zero and non-false; the code tests Python
truthiness, not mere non-nullness, which is the one correction to the claim);
elements with no such field, a falsy field, or a falsy gamePuzzle are skipped
and a later element is located.  If no element matches, or included is absent
or empty or the document is not a dict, the result is absent.  From the
found puzzle object the flat solution sequence is both the returned value and
the stored primary result, and missing gridRowSize, presetCellIdxes and name
default to 6, the empty sequence and the literal Unknown in the stored
mini_sudoku record.  The found branch assumes the scanned elements keep the
scan exception-free (each element a dict whose truthy gamePuzzle values are
dicts), which the code otherwise turns into the same absent result. -/
theorem mini_sudoku_extractor_amended :
    (∀ (data : Json) (st : Store), specLocate data = none →
      miniSudokuFromData data st = .ok (.null, st)) ∧
    (∀ (fs : List (String × Json)) (items : List Json) (mfs : List (String × Json))
        (cells : List Json) (st : Store),
      fs.lookup "included" = some (.arr items) →
      items.all scanSafe = true →
      scanTruthy items = some (.obj mfs) →
      mfs.lookup "solution" = some (.arr cells) →
      mfs.lookup "gridRowSize" = none →
      mfs.lookup "presetCellIdxes" = none →
      mfs.lookup "name" = none →
      miniSudokuFromData (.obj fs) st =
        .ok (.arr cells, st.set "mini_sudoku" (.obj
          [("solution", .arr cells), ("grid_size", .num 6),
           ("preset_cells", .arr []), ("title", .str "Unknown")]))) := by
  constructor
  · intro data st h
    apply miniFromData_absent
    intro r hr
    obtain ⟨msp, hm⟩ := miniBody_some_locate data r hr
    rw [h] at hm
    exact Option.noConfusion hm
  · intro fs items mfs cells st hlk hsafe hscan hsol hgs hpre hname
    have htr : (Json.obj fs).truthy = true := by
      rw [show (Json.obj fs).truthy = !fs.isEmpty from rfl,
        lookup_isEmpty_false fs "included" _ hlk]
      rfl
    have hany := lookup_any_true fs "included" _ hlk
    have hitr : (Json.arr items).truthy = true := by
      cases items with
      | nil => simp [scanTruthy] at hscan
      | cons a as => rfl
    have hms := miniScan_safe items hsafe
    rw [hscan] at hms
    have hbody : miniBody (Json.obj fs)
        = .ok (some (.arr cells, .num 6, .arr [], .str "Unknown")) := by
      simp only [miniBody, Json.pyContainsKey, exBind_ok]
      rw [if_pos (by rw [hany])]
      simp only [Json.getKey, hlk, exBind_ok]
      rw [if_pos (by rw [hitr])]
      simp only [Json.pyIter, exBind_ok, hms]
      simp only [Json.getKey, hsol, exBind_ok]
      simp only [Json.pyGetD, hgs, hpre, hname, Option.getD_none, exBind_ok]
      rw [show miniLogRows (Json.num 6) (Json.arr cells) = Except.ok () from rfl, exBind_ok]
      rfl
    unfold miniSudokuFromData
    rw [if_pos htr, hbody]

theorem mini_sudoku_extractor_amended_witness :
    miniSudokuFromData (Json.obj [("included", Json.arr
        [Json.obj [("gamePuzzle", Json.obj [("miniSudokuGamePuzzle",
          Json.obj [("solution", Json.arr [Json.num 9])])])]])]) [] =
      .ok (.arr [.num 9], Store.set [] "mini_sudoku" (.obj
        [("solution", .arr [.num 9]), ("grid_size", .num 6),
         ("preset_cells", .arr []), ("title", .str "Unknown")])) :=
  mini_sudoku_extractor_amended.2
    [("included", Json.arr [Json.obj [("gamePuzzle", Json.obj
      [("miniSudokuGamePuzzle", Json.obj [("solution", Json.arr [Json.num 9])])])]])]
    [Json.obj [("gamePuzzle", Json.obj
      [("miniSudokuGamePuzzle", Json.obj [("solution", Json.arr [Json.num 9])])])]]
    [("solution", Json.arr [Json.num 9])]
    [Json.num 9] [] rfl rfl rfl rfl rfl rfl rfl

theorem okPair_inj {a b : Json} {s t : Store}
    (h : (Except.ok (a, s) : Except String (Json × Store)) = .ok (b, t)) :
    a = b ∧ s = t := by
  injection h with h2
  injection h2 with ha hb
  exact ⟨ha, hb⟩

theorem crossclimbBody_shape (d v : Json) (h : crossclimbBody d = .ok v) :
    ∃ l, v = Json.arr l := by
  unfold crossclimbBody at h
  obtain ⟨inc, h1, h⟩ := exBind_ok_elim h
  obtain ⟨e0, h2, h⟩ := exBind_ok_elim h
  obtain ⟨gp, h3, h⟩ := exBind_ok_elim h
  obtain ⟨cc, h4, h⟩ := exBind_ok_elim h
  obtain ⟨rungs, h5, h⟩ := exBind_ok_elim h
  obtain ⟨elems, h6, h⟩ := exBind_ok_elim h
  obtain ⟨keyed, h7, h⟩ := exBind_ok_elim h
  obtain ⟨sorted, h8, h⟩ := exBind_ok_elim h
  obtain ⟨sol, h9, h⟩ := exBind_ok_elim h
  rw [exPure] at h
  injection h with h10
  exact ⟨sol, h10.symm⟩

theorem tangoBody_shape (d v : Json) (h : tangoBody d = .ok v) :
    ∃ s, v = Json.str s := by
  unfold tangoBody at h
  obtain ⟨inc, h1, h⟩ := exBind_ok_elim h
  obtain ⟨e0, h2, h⟩ := exBind_ok_elim h
  obtain ⟨gp, h3, h⟩ := exBind_ok_elim h
  obtain ⟨lp, h4, h⟩ := exBind_ok_elim h
  obtain ⟨sa, h5, h⟩ := exBind_ok_elim h
  obtain ⟨items, h6, h⟩ := exBind_ok_elim h
  rw [exPure] at h
  injection h with h7
  exact ⟨tangoEncode items, h7.symm⟩

theorem queensBody_shape (d : Json) (trip : Json × Json × Json)
    (h : queensBody d = .ok trip) : ∃ l, trip.fst = Json.arr l := by
  unfold queensBody at h
  obtain ⟨inc, h1, h⟩ := exBind_ok_elim h
  obtain ⟨e0, h2, h⟩ := exBind_ok_elim h
  obtain ⟨gp, h3, h⟩ := exBind_ok_elim h
  obtain ⟨qp, h4, h⟩ := exBind_ok_elim h
  obtain ⟨queens, h5, h⟩ := exBind_ok_elim h
  obtain ⟨board, h6, h⟩ := exBind_ok_elim h
  obtain ⟨grid, h7, h⟩ := exBind_ok_elim h
  obtain ⟨qs, h8, h⟩ := exBind_ok_elim h
  obtain ⟨sol, h9, h⟩ := exBind_ok_elim h
  obtain ⟨rows, h10, h⟩ := exBind_ok_elim h
  obtain ⟨bd, h11, h⟩ := exBind_ok_elim h
  rw [exPure] at h
  injection h with h12
  rw [← h12]
  exact ⟨sol, rfl⟩

/-- C9 counterexample: a structurally valid pinpoint document whose first
solution is JSON null makes the extractor write null under "pinpoint" —
overwriting a previously stored entry — while still returning None (an
unsuccessful attempt), so an unsuccessful attempt can change the store. -/
theorem result_store_claim_false :
    pinpointFromData c9doc [("pinpoint", .str "OLD")] =
      .ok (.null, [("pinpoint", Json.null)]) ∧
    ([("pinpoint", Json.str "OLD")] : Store) ≠ [("pinpoint", Json.null)] ∧
    Store.get [("pinpoint", Json.str "OLD")] "pinpoint" = some (.str "OLD") ∧
    Store.get [("pinpoint", Json.null)] "pinpoint" = some Json.null := by
  refine ⟨rfl, fun h => ?_, rfl, rfl⟩
  injection h with h1
  injection h1 with hk hv
  exact Json.noConfusion hv

/-- C9 amended: the results store starts empty, and an extraction attempt
that ends absent (returns None) leaves the store unchanged, except in the
edge case in which the extraction structurally succeeds with a null payload:
then pinpoint may write null under its key, zip may write its three keys
with a null zip_sequence, and mini_sudoku may write its record, while the
attempt still reports absent.  The crossclimb, queens and tango extractors
build their value as a list or string, never null, so for them absent always
means the store is untouched.  No extractor ever deletes a key: every key
present before an attempt is present after it. -/
theorem result_store_amended :
    initialResults = ([] : Store) ∧
    (∀ (d : Json) (st : Store) (v : Json) (st2 : Store),
      pinpointFromData d st = .ok (v, st2) →
      (v = Json.null → st2 = st ∨ st2 = st.set "pinpoint" Json.null) ∧
      (∀ k, (Store.get st k).isSome = true → (Store.get st2 k).isSome = true)) ∧
    (∀ (d : Json) (st : Store) (v : Json) (st2 : Store),
      crossclimbFromData d st = .ok (v, st2) →
      (v = Json.null → st2 = st) ∧
      (∀ k, (Store.get st k).isSome = true → (Store.get st2 k).isSome = true)) ∧
    (∀ (d : Json) (st : Store) (v : Json) (st2 : Store),
      zipFromData d st = .ok (v, st2) →
      (v = Json.null → st2 = st ∨ ∃ sol grid,
        st2 = ((st.set "zip" sol).set "zip_sequence" Json.null).set "zip_grid" grid) ∧
      (∀ k, (Store.get st k).isSome = true → (Store.get st2 k).isSome = true)) ∧
    (∀ (d : Json) (st : Store) (v : Json) (st2 : Store),
      queensFromData d st = .ok (v, st2) →
      (v = Json.null → st2 = st) ∧
      (∀ k, (Store.get st k).isSome = true → (Store.get st2 k).isSome = true)) ∧
    (∀ (d : Json) (st : Store) (v : Json) (st2 : Store),
      tangoFromData d st = .ok (v, st2) →
      (v = Json.null → st2 = st) ∧
      (∀ k, (Store.get st k).isSome = true → (Store.get st2 k).isSome = true)) ∧
    (∀ (d : Json) (st : Store) (v : Json) (st2 : Store),
      miniSudokuFromData d st = .ok (v, st2) →
      (v = Json.null → st2 = st ∨ ∃ entry, st2 = st.set "mini_sudoku" entry) ∧
      (∀ k, (Store.get st k).isSome = true → (Store.get st2 k).isSome = true)) := by
  refine ⟨rfl, ?_, ?_, ?_, ?_, ?_, ?_⟩
  · intro d st v st2 h
    unfold pinpointFromData at h
    by_cases hd : d.truthy = true
    · rw [if_pos hd] at h
      cases hb : pinpointBody d with
      | ok sol =>
        rw [hb] at h
        obtain ⟨hv, hst⟩ := okPair_inj h
        subst hv
        subst hst
        exact ⟨fun hn => Or.inr (by rw [hn]),
          fun k hk => store_get_set_isSome st "pinpoint" k sol hk⟩
      | error e =>
        rw [hb] at h
        obtain ⟨hv, hst⟩ := okPair_inj h
        subst hst
        exact ⟨fun _ => Or.inl rfl, fun k hk => hk⟩
    · rw [if_neg hd] at h
      obtain ⟨hv, hst⟩ := okPair_inj h
      subst hst
      exact ⟨fun _ => Or.inl rfl, fun k hk => hk⟩
  · intro d st v st2 h
    unfold crossclimbFromData at h
    by_cases hd : d.truthy = true
    · rw [if_pos hd] at h
      cases hb : crossclimbBody d with
      | ok sol =>
        rw [hb] at h
        obtain ⟨hv, hst⟩ := okPair_inj h
        subst hv
        subst hst
        obtain ⟨l, hl⟩ := crossclimbBody_shape d sol hb
        refine ⟨fun hn => ?_, fun k hk => store_get_set_isSome st "crossclimb" k sol hk⟩
        rw [hl] at hn
        exact absurd hn (fun hx => Json.noConfusion hx)
      | error e =>
        rw [hb] at h
        obtain ⟨hv, hst⟩ := okPair_inj h
        subst hst
        exact ⟨fun _ => rfl, fun k hk => hk⟩
    · rw [if_neg hd] at h
      obtain ⟨hv, hst⟩ := okPair_inj h
      subst hst
      exact ⟨fun _ => rfl, fun k hk => hk⟩
  · intro d st v st2 h
    unfold zipFromData at h
    by_cases hd : d.truthy = true
    · rw [if_pos hd] at h
      cases hb : zipBody d with
      | ok trip =>
        obtain ⟨seq, sol, grid⟩ := trip
        rw [hb] at h
        obtain ⟨hv, hst⟩ := okPair_inj h
        subst hv
        subst hst
        refine ⟨fun hn => Or.inr ⟨sol, grid, by rw [hn]⟩, fun k hk => ?_⟩
        exact store_get_set_isSome _ "zip_grid" k grid
          (store_get_set_isSome _ "zip_sequence" k seq
            (store_get_set_isSome st "zip" k sol hk))
      | error e =>
        rw [hb] at h
        obtain ⟨hv, hst⟩ := okPair_inj h
        subst hst
        exact ⟨fun _ => Or.inl rfl, fun k hk => hk⟩
    · rw [if_neg hd] at h
      obtain ⟨hv, hst⟩ := okPair_inj h
      subst hst
      exact ⟨fun _ => Or.inl rfl, fun k hk => hk⟩
  · intro d st v st2 h
    unfold queensFromData at h
    by_cases hd : d.truthy = true
    · rw [if_pos hd] at h
      cases hb : queensBody d with
      | ok trip =>
        obtain ⟨sol, bd, grid⟩ := trip
        rw [hb] at h
        obtain ⟨hv, hst⟩ := okPair_inj h
        subst hv
        subst hst
        obtain ⟨l, hl⟩ := queensBody_shape d (sol, bd, grid) hb
        refine ⟨fun hn => ?_, fun k hk => ?_⟩
        · rw [show (sol, bd, grid).fst = sol from rfl] at hl
          rw [hl] at hn
          exact absurd hn (fun hx => Json.noConfusion hx)
        · exact store_get_set_isSome _ "queens_grid" k grid
            (store_get_set_isSome _ "queens_board" k bd
              (store_get_set_isSome st "queens" k sol hk))
      | error e =>
        rw [hb] at h
        obtain ⟨hv, hst⟩ := okPair_inj h
        subst hst
        exact ⟨fun _ => rfl, fun k hk => hk⟩
    · rw [if_neg hd] at h
      obtain ⟨hv, hst⟩ := okPair_inj h
      subst hst
      exact ⟨fun _ => rfl, fun k hk => hk⟩
  · intro d st v st2 h
    unfold tangoFromData at h
    by_cases hd : d.truthy = true
    · rw [if_pos hd] at h
      cases hb : tangoBody d with
      | ok sol =>
        rw [hb] at h
        obtain ⟨hv, hst⟩ := okPair_inj h
        subst hv
        subst hst
        obtain ⟨s, hs⟩ := tangoBody_shape d sol hb
        refine ⟨fun hn => ?_, fun k hk => store_get_set_isSome st "tango" k sol hk⟩
        rw [hs] at hn
        exact absurd hn (fun hx => Json.noConfusion hx)
      | error e =>
        rw [hb] at h
        obtain ⟨hv, hst⟩ := okPair_inj h
        subst hst
        exact ⟨fun _ => rfl, fun k hk => hk⟩
    · rw [if_neg hd] at h
      obtain ⟨hv, hst⟩ := okPair_inj h
      subst hst
      exact ⟨fun _ => rfl, fun k hk => hk⟩
  · intro d st v st2 h
    unfold miniSudokuFromData at h
    by_cases hd : d.truthy = true
    · rw [if_pos hd] at h
      cases hb : miniBody d with
      | ok o =>
        cases o with
        | none =>
          rw [hb] at h
          obtain ⟨hv, hst⟩ := okPair_inj h
          subst hst
          exact ⟨fun _ => Or.inl rfl, fun k hk => hk⟩
        | some q =>
          obtain ⟨sol, gs, pre, ti⟩ := q
          rw [hb] at h
          obtain ⟨hv, hst⟩ := okPair_inj h
          subst hv
          subst hst
          exact ⟨fun _ => Or.inr ⟨_, rfl⟩,
            fun k hk => store_get_set_isSome st "mini_sudoku" k _ hk⟩
      | error e =>
        rw [hb] at h
        obtain ⟨hv, hst⟩ := okPair_inj h
        subst hst
        exact ⟨fun _ => Or.inl rfl, fun k hk => hk⟩
    · rw [if_neg hd] at h
      obtain ⟨hv, hst⟩ := okPair_inj h
      subst hst
      exact ⟨fun _ => Or.inl rfl, fun k hk => hk⟩

/-- A concrete run of the C9 amended theorem: an absent pinpoint attempt on a
null document leaves a one-entry store unchanged (the left disjunct). -/
theorem result_store_amended_witness :
    ([("x", Json.null)] : Store) = [("x", Json.null)] ∨
    ([("x", Json.null)] : Store) = Store.set [("x", Json.null)] "pinpoint" Json.null :=
  (result_store_amended.2.1 Json.null [("x", Json.null)] Json.null
    [("x", Json.null)] rfl).1 rfl

end LinkedinGames
